import Mathlib

/-!
Verification of the CACC drive-cycle generator (`python/create_drive_cycle.py`)
and the CACC requirement evaluators
(`python/test/test_cacc_requirements.py`) of the CavDevChallenge2025 repository.

The numeric model is exact rational arithmetic (`ℚ`).  The two transcendental
operations that occur in the sources are kept abstract:

* `pow45 : ℚ → ℚ` models the float power `v ** 0.45` used by FDCW-1;
* `sin : ℚ → ℚ` together with a value `two_pi : ℚ` models `np.sin` and
  `2 * np.pi` used by the highway profile.

Both are universally quantified in every theorem, so each theorem holds in
particular for the real sine and real power.  NumPy / pandas primitives
(`arange`, `linspace`, boolean-mask assignment, `diff`, `gradient`, `idxmax`,
positional `iloc` lookup) are embedded as list functions; a pandas `NaN`
arising from `Series.diff()` is modelled by `Option`, and an `IndexError` of a
positional lookup by an `Option`-valued result.
-/

namespace CavDev

/-! ## NumPy / pandas primitives -/

/-- `np.arange(0, stop, step)` for `step > 0`: the values `i * step` for
`0 ≤ i < ⌈stop / step⌉`. -/
def arange (stop step : ℚ) : List ℚ :=
  (List.range (Int.toNat ⌈stop / step⌉)).map (fun (i : ℕ) => (i : ℚ) * step)

/-- `np.linspace(a, b, n)`: `n` evenly spaced values from `a` to `b`
inclusive; `[a]` for `n = 1`, `[]` for `n = 0`. -/
def linspace (a b : ℚ) (n : ℕ) : List ℚ :=
  if n = 1 then [a]
  else (List.range n).map (fun (i : ℕ) => a + (b - a) * (i : ℚ) / ((n : ℚ) - 1))

/-- `np.diff`: consecutive differences `l[i+1] - l[i]`. -/
def npDiff (l : List ℚ) : List ℚ :=
  List.zipWith (fun a b => a - b) l.tail l

/-- `np.mean` (also the skip-NaN mean that `pandas.Series.mean` takes of a
`diff()` column, whose only NaN is the leading one which `diff` of a time
column never feeds to `mean` here).  Division by zero (empty input) follows
the Lean convention `x / 0 = 0`; all theorems below use it only on nonempty
input or in branches whose value is irrelevant. -/
def npMean (l : List ℚ) : ℚ :=
  l.sum / (l.length : ℚ)

/-- `np.sum` of a boolean mask: the number of `true` entries. -/
def countTrue (mask : List Bool) : ℕ :=
  mask.countP id

/-- NumPy fancy assignment `xs[mask] = vals`: the `true` positions of `mask`
receive the successive elements of `vals`; other positions keep their value. -/
def maskAssign : List ℚ → List Bool → List ℚ → List ℚ
  | [], _, _ => []
  | xs, [], _ => xs
  | _ :: xs, true :: ms, v :: vs => v :: maskAssign xs ms vs
  | x :: xs, true :: ms, [] => x :: maskAssign xs ms []
  | x :: xs, false :: ms, vs => x :: maskAssign xs ms vs

/-- NumPy fancy assignment with a scalar: `xs[mask] = c`. -/
def maskAssignConst : List ℚ → List Bool → ℚ → List ℚ
  | [], _, _ => []
  | xs, [], _ => xs
  | x :: xs, b :: ms, c => (if b then c else x) :: maskAssignConst xs ms c

/-- Pandas boolean indexing `series[mask]`: keep the entries at `true`
positions, in order. -/
def maskFilter : List ℚ → List Bool → List ℚ
  | [], _ => []
  | _, [] => []
  | v :: vs, b :: bs => if b then v :: maskFilter vs bs else maskFilter vs bs

/-- Python slice `xs[start:stop]`. -/
def slice (xs : List ℚ) (start stop : ℕ) : List ℚ :=
  (xs.drop start).take (stop - start)

/-- Writing a computed block back into a slice of `xs` (the effect of the
in-place NumPy assignments on the view `speeds[start_idx:end_idx]`). -/
def setSlice (xs : List ℚ) (start : ℕ) (piece : List ℚ) : List ℚ :=
  xs.take start ++ piece ++ xs.drop (start + piece.length)

/-- `pandas.Series.diff()`: leading `NaN` (modelled `none`) followed by the
consecutive differences. -/
def pandasDiff (l : List ℚ) : List (Option ℚ) :=
  match l with
  | [] => []
  | _ :: _ => none :: (npDiff l).map some

/-- Pandas `Series.max()` of a float series: `none` on an empty series. -/
def seriesMax : List ℚ → Option ℚ
  | [] => none
  | x :: xs => some (xs.foldl max x)

/-- `np.max` of a (nonempty) array; the empty case (which raises in NumPy) is
given the junk value `0` and is unreachable in every theorem below. -/
def npMax (l : List ℚ) : ℚ :=
  l.foldl max (l.headD 0)

/-- `np.min` of a (nonempty) array, as `npMax`. -/
def npMin (l : List ℚ) : ℚ :=
  l.foldl min (l.headD 0)

/-- `np.gradient(ys, dt)`: second-order central differences in the interior,
one-sided differences at the two ends.  NumPy raises for fewer than two
samples, modelled by `none`. -/
def npGradient (ys : List ℚ) (dt : ℚ) : Option (List ℚ) :=
  if ys.length < 2 then none
  else some ((List.range ys.length).map (fun i =>
    if i = 0 then (ys.getD 1 0 - ys.getD 0 0) / dt
    else if i = ys.length - 1 then (ys.getD i 0 - ys.getD (i - 1) 0) / dt
    else (ys.getD (i + 1) 0 - ys.getD (i - 1) 0) / (2 * dt)))

/-- `Series.idxmax()` on a boolean series whose index labels are `10, 11, …`
(the labels surviving `df.iloc[10:]` applied to a RangeIndex-ed log): the
label of the first `true`, or the first label when every entry is `false`
(pandas raises on an empty series, modelled `none`). -/
def idxmaxBool10 (vals : List Bool) : Option ℕ :=
  if vals.any id then some (vals.findIdx id + 10)
  else if vals.isEmpty then none
  else some 10

/-! ## Profile synthesizer (`create_drive_cycle.py`) -/

/-- `create_highway_profile`: five phases selected by boolean masks over the
time axis; the ramps are `np.linspace` over the number of samples of their
mask, the oscillating phase uses `max*0.8 + 5*sin(2*pi*(t-40)/20)`. -/
def create_highway_profile (sin : ℚ → ℚ) (two_pi : ℚ)
    (time : List ℚ) (max_speed min_speed : ℚ) : List ℚ :=
  let speeds := List.replicate time.length (0 : ℚ)
  let accel_mask := time.map (fun t => decide (t ≤ 20))
  let speeds := maskAssign speeds accel_mask
    (linspace 0 (max_speed * 0.8) (countTrue accel_mask))
  let cruise_mask := time.map (fun t => decide (20 < t) && decide (t ≤ 40))
  let speeds := maskAssignConst speeds cruise_mask (max_speed * 0.8)
  let adjust_mask := time.map (fun t => decide (40 < t) && decide (t ≤ 60))
  let speeds := maskAssign speeds adjust_mask
    ((time.filter (fun t => decide (40 < t) && decide (t ≤ 60))).map
      (fun t => max_speed * 0.8 + 5 * sin (two_pi * (t - 40) / 20)))
  let follow_mask := time.map (fun t => decide (60 < t) && decide (t ≤ 80))
  let speeds := maskAssignConst speeds follow_mask (max_speed * 0.7)
  let decel_mask := time.map (fun t => decide (80 < t))
  maskAssign speeds decel_mask
    (linspace (max_speed * 0.7) min_speed (countTrue decel_mask))

/-- The body of one iteration of the city stop-and-go loop, acting on the
extracted slice `sl = speeds[start_idx:end_idx]` with its cycle-local time
axis `cycle_time` (a direct transcription of the four guarded mask
assignments inside the loop of `create_city_profile`). -/
def cityAssignPhases (cycle_time : List ℚ) (sl : List ℚ) (max_speed : ℚ) :
    List ℚ :=
  if 0 < cycle_time.length then
    let accel_mask := cycle_time.map (fun t => decide (t ≤ 5))
    let sl := if accel_mask.any id then
        maskAssign sl accel_mask
          (linspace 0 (max_speed * 0.6) (countTrue accel_mask))
      else sl
    let cruise_mask := cycle_time.map (fun t => decide (5 < t) && decide (t ≤ 10))
    let sl := if cruise_mask.any id then
        maskAssignConst sl cruise_mask (max_speed * 0.6)
      else sl
    let decel_mask := cycle_time.map (fun t => decide (10 < t) && decide (t ≤ 15))
    let sl := if decel_mask.any id then
        maskAssign sl decel_mask
          (linspace (max_speed * 0.6) 0 (countTrue decel_mask))
      else sl
    let stop_mask := cycle_time.map (fun t => decide (15 < t))
    if stop_mask.any id then maskAssignConst sl stop_mask 0 else sl
  else sl

/-- One iteration of the loop of `create_city_profile`: compute the index
window of cycle `i` (with the hard-coded `0.02` s step of the source), form
the cycle-local time axis, rewrite the slice, and write it back.  The
source's `break` when `start_idx >= len(time)` is modelled by returning
`speeds` unchanged, which agrees with `break` because every later iteration
has a larger `start_idx`. -/
def cityStep (time : List ℚ) (max_speed : ℚ) (speeds : List ℚ) (i : ℕ) :
    List ℚ :=
  let cycle_duration : ℚ := 20
  let start_idx := Int.toNat ⌊(i : ℚ) * cycle_duration / 0.02⌋
  let end_idx := min (Int.toNat ⌊((i : ℚ) + 1) * cycle_duration / 0.02⌋) time.length
  if time.length ≤ start_idx then speeds
  else
    let cycle_time := (slice time start_idx end_idx).map
      (fun t => t - time.getD start_idx 0)
    setSlice speeds start_idx
      (cityAssignPhases cycle_time (slice speeds start_idx end_idx) max_speed)

/-- `create_city_profile`: `int(len(time) / (cycle_duration / 0.02))` full
stop-and-go cycles over an initially all-zero speed array.  `min_speed` is
accepted and ignored exactly as in the source. -/
def create_city_profile (time : List ℚ) (max_speed min_speed : ℚ) : List ℚ :=
  let cycle_duration : ℚ := 20
  let n_cycles := Int.toNat ⌊(time.length : ℚ) / (cycle_duration / 0.02)⌋
  (List.range n_cycles).foldl (cityStep time max_speed)
    (List.replicate time.length (0 : ℚ))

/-- `create_mixed_profile`: a scaled city phase up to 30 s followed by
highway ramp / cruise / ramp phases. -/
def create_mixed_profile (time : List ℚ) (max_speed min_speed : ℚ) : List ℚ :=
  let speeds := List.replicate time.length (0 : ℚ)
  let city_phase := time.map (fun t => decide (t ≤ 30))
  let speeds := if city_phase.any id then
      maskAssign speeds city_phase
        (create_city_profile (time.filter (fun t => decide (t ≤ 30)))
          (max_speed * 0.7) 0)
    else speeds
  let hwy_accel_phase := time.map (fun t => decide (30 < t) && decide (t ≤ 50))
  let speeds := if hwy_accel_phase.any id then
      maskAssign speeds hwy_accel_phase
        (linspace 0 max_speed (countTrue hwy_accel_phase))
    else speeds
  let hwy_cruise_phase := time.map (fun t => decide (50 < t) && decide (t ≤ 70))
  let speeds := if hwy_cruise_phase.any id then
      maskAssignConst speeds hwy_cruise_phase max_speed
    else speeds
  let hwy_decel_phase := time.map (fun t => decide (70 < t))
  if hwy_decel_phase.any id then
    maskAssign speeds hwy_decel_phase
      (linspace max_speed min_speed (countTrue hwy_decel_phase))
  else speeds

/-- The two columns of the returned data frame. -/
structure DriveCycleDF where
  time : List ℚ
  speed : List ℚ
deriving Repr

/-- `create_cacc_optimized_drive_cycle`: fixed-step time axis, dispatch on
`scenario_type` (any unrecognized value takes the `else`, i.e. mixed,
branch), then `np.clip(speeds, 0, max_speed_mps)`. -/
def create_cacc_optimized_drive_cycle (sin : ℚ → ℚ) (two_pi : ℚ)
    (duration_sec dt max_speed_mps min_speed_mps : ℚ)
    (scenario_type : String) : DriveCycleDF :=
  let time := arange duration_sec dt
  let speeds :=
    if scenario_type = "highway" then
      create_highway_profile sin two_pi time max_speed_mps min_speed_mps
    else if scenario_type = "city" then
      create_city_profile time max_speed_mps min_speed_mps
    else
      create_mixed_profile time max_speed_mps min_speed_mps
  let speeds := speeds.map (fun s => min (max s 0) max_speed_mps)
  ⟨time, speeds⟩

/-- The record of scalars returned by `validate_drive_cycle`. -/
structure ValidationStats where
  max_speed_mps : ℚ
  max_speed_mph : ℚ
  min_speed_mps : ℚ
  avg_speed_mps : ℚ
  max_acceleration : ℚ
  max_deceleration : ℚ
  steady_state_percentage : ℚ
  duration_sec : ℚ
deriving Repr

/-- `validate_drive_cycle`: acceleration by `np.gradient` at the mean time
step, extrema, and the share of samples with `|acceleration| < 0.5`.
`none` models the `np.gradient` failure on fewer than two samples and the
`time[-1]` / `time[0]` lookup failure on an empty time column. -/
def validate_drive_cycle (df : DriveCycleDF) : Option ValidationStats :=
  let time := df.time
  let speed := df.speed
  let dt := npMean (npDiff time)
  match npGradient speed dt with
  | none => none
  | some acceleration =>
    match time.getLast?, time.head? with
    | some tLast, some tFirst =>
      some {
        max_speed_mps := npMax speed
        max_speed_mph := npMax speed * 2.237
        min_speed_mps := npMin speed
        avg_speed_mps := npMean speed
        max_acceleration := npMax acceleration
        max_deceleration := npMin acceleration
        steady_state_percentage :=
          ((countTrue (acceleration.map (fun a => decide (|a| < 0.5))) : ℚ) /
            (acceleration.length : ℚ)) * 100
        duration_sec := tLast - tFirst }
    | _, _ => none

/-! ## Requirement evaluator (`test_cacc_requirements.py`) -/

/-- The three lead-vehicle-related columns whose joint presence the tests
detect through the `ACTOR_lead` naming convention. -/
structure LeadCols where
  lead_x : List ℚ
  ego_x : List ℚ
  lead_speed : List ℚ

/-- A scenario log produced by the external simulator: a RangeIndex-ed table
(rows `0, 1, …`) with a `time` and an `ego_speed` column and, when the
scenario has a lead vehicle, the `ACTOR_lead_*` / `ACTOR_ego_x` columns. -/
structure ScenarioLog where
  time : List ℚ
  ego_speed : List ℚ
  lead : Option LeadCols

/-- All columns of a log have the row count of the `time` column. -/
def ScenarioLog.WF (log : ScenarioLog) : Prop :=
  log.ego_speed.length = log.time.length ∧
  ∀ lc ∈ log.lead,
    lc.lead_x.length = log.time.length ∧
    lc.ego_x.length = log.time.length ∧
    lc.lead_speed.length = log.time.length

/-- Outcome of one requirement evaluation: `pass` (the test function runs to
its success message), `fail` (the failing `assert` branch is entered), and
`skip` (`pytest.skip`). -/
inductive Outcome
  | pass
  | fail
  | skip
deriving DecidableEq, Repr

/-- `test_minimum_following_distance_requirement` at outcome level, after
the `df.iloc[10:]` trim: skip without lead columns, otherwise fail exactly
when some trimmed sample has
`lead_x - ego_x < 2.8 * (lead_speed * 2.237) ** 0.45 + 8`.
`pow45` abstracts the float power `v ** 0.45`. -/
def fdcw1_outcome (pow45 : ℚ → ℚ) (log : ScenarioLog) : Outcome :=
  match log.lead with
  | none => Outcome.skip
  | some lc =>
    let following_distances :=
      List.zipWith (fun a b => a - b) (lc.lead_x.drop 10) (lc.ego_x.drop 10)
    let lead_speed_mph := (lc.lead_speed.drop 10).map (fun v => v * 2.237)
    let min_allowed_distances :=
      lead_speed_mph.map (fun v => 2.8 * pow45 v + 8)
    let violations :=
      List.zipWith (fun a b => decide (a < b)) following_distances
        min_allowed_distances
    if violations.any id then Outcome.fail else Outcome.pass

/-- The quantities interpolated into the FDCW-1 failure message. -/
structure FDCW1Report where
  time : ℚ
  following_distance : ℚ
  min_allowed : ℚ
  lead_speed_mph : ℚ

/-- The failure-report computation of the FDCW-1 test: `violations.idxmax()`
yields an index label (`position + 10` on the trimmed frame), which the
source then uses as an `iloc` position into the trimmed series.  `none` in
the failing case models the `IndexError` of an out-of-range `iloc` lookup;
when no violation exists no report is produced. -/
def fdcw1_report (pow45 : ℚ → ℚ) (log : ScenarioLog) : Option FDCW1Report :=
  match log.lead with
  | none => none
  | some lc =>
    let following_distances :=
      List.zipWith (fun a b => a - b) (lc.lead_x.drop 10) (lc.ego_x.drop 10)
    let lead_speed_mph := (lc.lead_speed.drop 10).map (fun v => v * 2.237)
    let min_allowed_distances :=
      lead_speed_mph.map (fun v => 2.8 * pow45 v + 8)
    let violations :=
      List.zipWith (fun a b => decide (a < b)) following_distances
        min_allowed_distances
    if violations.any id then
      match idxmaxBool10 violations with
      | none => none
      | some worst_violation_idx =>
        match following_distances.get? worst_violation_idx,
              min_allowed_distances.get? worst_violation_idx,
              lead_speed_mph.get? worst_violation_idx,
              (log.time.drop 10).get? worst_violation_idx with
        | some wfd, some wma, some wls, some wt => some ⟨wt, wfd, wma, wls⟩
        | _, _, _, _ => none
    else none

/-- Trimmed position of the first violating sample of FDCW-1 (the sample the
specification says the failure report describes). -/
def fdcw1_first_violation (pow45 : ℚ → ℚ) (log : ScenarioLog) : Option ℕ :=
  match log.lead with
  | none => none
  | some lc =>
    let following_distances :=
      List.zipWith (fun a b => a - b) (lc.lead_x.drop 10) (lc.ego_x.drop 10)
    let lead_speed_mph := (lc.lead_speed.drop 10).map (fun v => v * 2.237)
    let min_allowed_distances :=
      lead_speed_mph.map (fun v => 2.8 * pow45 v + 8)
    let violations :=
      List.zipWith (fun a b => decide (a < b)) following_distances
        min_allowed_distances
    violations.findIdx? id

/-- FDCW-2 `desired_speed` after the trim: the lead speed when a lead actor
exists, otherwise the ego speed itself. -/
def fdcw2_desired_speed (log : ScenarioLog) : List ℚ :=
  match log.lead with
  | some lc => lc.lead_speed.drop 10
  | none => log.ego_speed.drop 10

/-- FDCW-2 `actual_speed` after the trim. -/
def fdcw2_actual_speed (log : ScenarioLog) : List ℚ :=
  log.ego_speed.drop 10

/-- FDCW-2 `relative_speed_error = |desired - actual| / (desired + 1e-6) * 100`. -/
def fdcw2_relative_speed_error (log : ScenarioLog) : List ℚ :=
  List.zipWith (fun d a => |d - a| / (d + 1e-6) * 100)
    (fdcw2_desired_speed log) (fdcw2_actual_speed log)

/-- FDCW-2 `dt = df['time'].diff().mean()` on the trimmed frame (the mean
skips the leading NaN of `diff`, so it is the mean of the consecutive
differences). -/
def fdcw2_dt (log : ScenarioLog) : ℚ :=
  npMean (npDiff (log.time.drop 10))

/-- FDCW-2 `acceleration = actual_speed.diff() / dt`; the leading NaN of
`diff` stays NaN (`none`) after the scalar division. -/
def fdcw2_acceleration (log : ScenarioLog) : List (Option ℚ) :=
  (pandasDiff (fdcw2_actual_speed log)).map
    (fun a => a.map (fun d => d / fdcw2_dt log))

/-- FDCW-2 steady-state mask
`(df.index >= len(df) * 0.5) & (abs(acceleration) < 0.5) & (desired_speed > 1.0)`.
The trimmed frame keeps its original index labels `10, 11, …`, so the first
conjunct compares the label `p + 10` of trimmed position `p` with half the
trimmed length.  A NaN acceleration compares as `false`. -/
def fdcw2_steady_state_mask (log : ScenarioLog) : List Bool :=
  let lenDf := (log.time.drop 10).length
  let idx_ge := (List.range lenDf).map
    (fun (p : ℕ) => decide ((lenDf : ℚ) * 0.5 ≤ ((p : ℚ) + 10)))
  let low_accel := (fdcw2_acceleration log).map
    (fun a => match a with
      | none => false
      | some x => decide (|x| < 0.5))
  let desired_ok := (fdcw2_desired_speed log).map (fun d => decide (1 < d))
  List.zipWith and (List.zipWith and idx_ge low_accel) desired_ok

/-- `test_speed_error_requirement` at outcome level: skip when no sample
satisfies the steady-state mask, otherwise fail exactly when the maximum
relative speed error over the steady-state samples exceeds 10. -/
def fdcw2_outcome (log : ScenarioLog) : Outcome :=
  let mask := fdcw2_steady_state_mask log
  if mask.any id = false then Outcome.skip
  else
    let steady_state_errors := maskFilter (fdcw2_relative_speed_error log) mask
    match seriesMax steady_state_errors with
    | none => Outcome.pass
    | some max_error => if 10 < max_error then Outcome.fail else Outcome.pass

/-- Position-level reading of the FDCW-2 steady-state mask: trimmed position
`p` is steady-state when its index label `p + 10` is at least half the
trimmed length, its acceleration entry is defined (not the leading NaN) with
absolute value below `0.5`, and the desired speed exceeds `1`. -/
def SteadyAt (log : ScenarioLog) (p : ℕ) : Prop :=
  p < (log.time.drop 10).length ∧
  ((log.time.drop 10).length : ℚ) * 0.5 ≤ ((p : ℚ) + 10) ∧
  (∃ a, (fdcw2_acceleration log).getD p none = some a ∧ |a| < 0.5) ∧
  1 < (fdcw2_desired_speed log).getD p 0

/-! ## Closed forms used by the statements about the city profile -/

/-- Number of samples of a full 1000-sample city cycle whose cycle-local
elapsed time `c * dt` is at most `T`. -/
def cityCountLe (dt T : ℚ) : ℕ :=
  (List.range 1000).countP (fun (k : ℕ) => decide ((k : ℚ) * dt ≤ T))

/-- Speed that the amended city description assigns to cycle-local sample
`c` (`c < 1000`) of a full 1000-sample stop-and-go cycle: phases are chosen
by the cycle-local elapsed time `c * dt`, the two ramps are uniform
per-sample interpolations over the samples of their phase. -/
def cityCycleValue (dt max_speed : ℚ) (c : ℕ) : ℚ :=
  let t : ℚ := (c : ℚ) * dt
  if t ≤ 5 then (linspace 0 (max_speed * 0.6) (cityCountLe dt 5)).getD c 0
  else if t ≤ 10 then max_speed * 0.6
  else if t ≤ 15 then
    (linspace (max_speed * 0.6) 0 (cityCountLe dt 15 - cityCountLe dt 10)).getD
      (c - cityCountLe dt 10) 0
  else 0

/-- Speed that claim C6's literal reading (20-second cycles for every `dt`,
phases from cycle-local elapsed time, the trailing shorter cycle still
computed) assigns at cycle-local elapsed time `t`. -/
def city_spec_speed (max_speed : ℚ) (t : ℚ) : ℚ :=
  if t ≤ 5 then max_speed * 0.6 * (t / 5)
  else if t ≤ 10 then max_speed * 0.6
  else if t ≤ 15 then max_speed * 0.6 * ((15 - t) / 5)
  else 0

/-- The speeds written by one full 1000-sample city cycle onto its (always
still all-zero) slice, with uniform step `dt`. -/
def cityBlockVals (dt max_speed : ℚ) : List ℚ :=
  cityAssignPhases ((List.range 1000).map (fun (c : ℕ) => (c : ℚ) * dt))
    (List.replicate 1000 (0 : ℚ)) max_speed

/-! ## Concrete example inputs used by counterexamples and witnesses -/

/-- A 14-row log without lead-vehicle columns: time step 1 s, constant ego
speed 5 m/s.  Its trimmed frame has 4 rows. -/
def logNoLead14 : ScenarioLog :=
  ⟨[0, 1, 2, 3, 4, 5, 6, 7, 8, 9, 10, 11, 12, 13],
   [5, 5, 5, 5, 5, 5, 5, 5, 5, 5, 5, 5, 5, 5],
   none⟩

/-- Lead columns of `log15`: constant gap 5 m, lead speed 0. -/
def leadCols15 : LeadCols :=
  ⟨[5, 5, 5, 5, 5, 5, 5, 5, 5, 5, 5, 5, 5, 5, 5],
   [0, 0, 0, 0, 0, 0, 0, 0, 0, 0, 0, 0, 0, 0, 0],
   [0, 0, 0, 0, 0, 0, 0, 0, 0, 0, 0, 0, 0, 0, 0]⟩

/-- A 15-row log with lead columns whose trimmed frame has only 5 rows, so
every trimmed sample is among the last 10. -/
def log15 : ScenarioLog :=
  ⟨[0, 1, 2, 3, 4, 5, 6, 7, 8, 9, 10, 11, 12, 13, 14],
   [1, 1, 1, 1, 1, 1, 1, 1, 1, 1, 1, 1, 1, 1, 1],
   some leadCols15⟩

/-- Lead columns of `log31`: gap 5 m everywhere except 4 m at row 20
(trimmed position 10), lead speed 0. -/
def leadCols31 : LeadCols :=
  ⟨[5, 5, 5, 5, 5, 5, 5, 5, 5, 5, 5, 5, 5, 5, 5, 5, 5, 5, 5, 5,
    4, 5, 5, 5, 5, 5, 5, 5, 5, 5, 5],
   [0, 0, 0, 0, 0, 0, 0, 0, 0, 0, 0, 0, 0, 0, 0, 0, 0, 0, 0, 0,
    0, 0, 0, 0, 0, 0, 0, 0, 0, 0, 0],
   [0, 0, 0, 0, 0, 0, 0, 0, 0, 0, 0, 0, 0, 0, 0, 0, 0, 0, 0, 0,
    0, 0, 0, 0, 0, 0, 0, 0, 0, 0, 0]⟩

/-- A 31-row log (time step 0.1 s) violating FDCW-1 from the first trimmed
sample on, with a distinguishable gap value at trimmed position 10. -/
def log31 : ScenarioLog :=
  ⟨[0, 0.1, 0.2, 0.3, 0.4, 0.5, 0.6, 0.7, 0.8, 0.9,
    1, 1.1, 1.2, 1.3, 1.4, 1.5, 1.6, 1.7, 1.8, 1.9,
    2, 2.1, 2.2, 2.3, 2.4, 2.5, 2.6, 2.7, 2.8, 2.9, 3],
   [1, 1, 1, 1, 1, 1, 1, 1, 1, 1, 1, 1, 1, 1, 1, 1, 1, 1, 1, 1,
    1, 1, 1, 1, 1, 1, 1, 1, 1, 1, 1],
   some leadCols31⟩

/-- A three-sample constant-speed drive cycle. -/
def dfConst3 : DriveCycleDF :=
  ⟨[0, 1, 2], [4, 4, 4]⟩

/-! ## General lemmas about the embedded primitives -/

theorem length_maskAssign (xs : List ℚ) (m : List Bool) (v : List ℚ) :
    (maskAssign xs m v).length = xs.length := by
  induction xs, m, v using maskAssign.induct <;> simp [maskAssign, *]

theorem length_maskAssignConst (xs : List ℚ) (m : List Bool) (c : ℚ) :
    (maskAssignConst xs m c).length = xs.length := by
  induction xs, m, c using maskAssignConst.induct <;> simp [maskAssignConst, *]

theorem length_linspace (a b : ℚ) (n : ℕ) : (linspace a b n).length = n := by
  unfold linspace
  split
  · simp [*]
  · rw [List.length_map, List.length_range]

theorem length_arange (stop step : ℚ) :
    (arange stop step).length = Int.toNat ⌈stop / step⌉ := by
  unfold arange
  rw [List.length_map, List.length_range]

theorem getElem_arange (stop step : ℚ) (i : ℕ)
    (h : i < (arange stop step).length) :
    (arange stop step)[i] = (i : ℚ) * step := by
  unfold arange at h ⊢
  simp only [List.getElem_map, List.getElem_range]

theorem getD_arange (stop step : ℚ) (i : ℕ)
    (h : i < (arange stop step).length) :
    (arange stop step).getD i 0 = (i : ℚ) * step := by
  rw [List.getD_eq_getElem _ _ h, getElem_arange]

theorem length_slice (xs : List ℚ) (s e : ℕ) :
    (slice xs s e).length = min (e - s) (xs.length - s) := by
  simp [slice]

theorem length_setSlice (xs piece : List ℚ) (s : ℕ)
    (h : s + piece.length ≤ xs.length) :
    (setSlice xs s piece).length = xs.length := by
  simp [setSlice]
  omega

theorem length_cityAssignPhases (ct sl : List ℚ) (m : ℚ) :
    (cityAssignPhases ct sl m).length = sl.length := by
  unfold cityAssignPhases
  dsimp only
  split_ifs <;> simp [length_maskAssign, length_maskAssignConst]

theorem length_cityStep (time : List ℚ) (m : ℚ) (speeds : List ℚ) (i : ℕ)
    (hlen : speeds.length = time.length) :
    (cityStep time m speeds i).length = time.length := by
  unfold cityStep
  dsimp only
  split
  · exact hlen
  · rw [length_setSlice, hlen]
    rw [length_cityAssignPhases, length_slice]
    omega

theorem length_city_foldl (time : List ℚ) (m : ℚ) :
    ∀ (l : List ℕ) (init : List ℚ), init.length = time.length →
      (l.foldl (cityStep time m) init).length = time.length
  | [], init, h => h
  | i :: is, init, h => by
    rw [List.foldl_cons]
    exact length_city_foldl time m is _ (length_cityStep time m init i h)

theorem length_create_city_profile (time : List ℚ) (mx mn : ℚ) :
    (create_city_profile time mx mn).length = time.length := by
  unfold create_city_profile
  exact length_city_foldl time mx _ _ (by simp)

theorem length_create_highway_profile (sin : ℚ → ℚ) (two_pi : ℚ)
    (time : List ℚ) (mx mn : ℚ) :
    (create_highway_profile sin two_pi time mx mn).length = time.length := by
  simp [create_highway_profile, length_maskAssign, length_maskAssignConst]

theorem length_create_mixed_profile (time : List ℚ) (mx mn : ℚ) :
    (create_mixed_profile time mx mn).length = time.length := by
  unfold create_mixed_profile
  dsimp only
  split_ifs <;> simp [length_maskAssign, length_maskAssignConst]

/-! ## C9: unrecognized scenario type falls back to the mixed profile -/

/-- C9: for every scenario type outside `{highway, city, mixed}` and all
numeric inputs, the synthesizer returns exactly the drive cycle of
`scenario_type = "mixed"` on the same numeric inputs. -/
theorem c9_unrecognized_scenario_is_mixed (sin : ℚ → ℚ) (two_pi : ℚ)
    (duration_sec dt max_speed_mps min_speed_mps : ℚ) (scenario_type : String)
    (h1 : scenario_type ≠ "highway") (h2 : scenario_type ≠ "city")
    (h3 : scenario_type ≠ "mixed") :
    create_cacc_optimized_drive_cycle sin two_pi duration_sec dt
        max_speed_mps min_speed_mps scenario_type =
      create_cacc_optimized_drive_cycle sin two_pi duration_sec dt
        max_speed_mps min_speed_mps "mixed" := by
  unfold create_cacc_optimized_drive_cycle
  dsimp only
  rw [if_neg h1, if_neg h2, if_neg (by decide : ¬("mixed" = "highway")),
    if_neg (by decide : ¬("mixed" = "city"))]

/-- Witness for C9 at the concrete scenario type "rural". -/
theorem c9_unrecognized_scenario_is_mixed_witness :
    ("rural" ≠ "highway" ∧ "rural" ≠ "city" ∧ "rural" ≠ "mixed") ∧
      create_cacc_optimized_drive_cycle (fun _ => 0) 0 100 (1/50) 30 5 "rural" =
        create_cacc_optimized_drive_cycle (fun _ => 0) 0 100 (1/50) 30 5 "mixed" :=
  ⟨⟨by decide, by decide, by decide⟩,
    c9_unrecognized_scenario_is_mixed _ _ _ _ _ _ _
      (by decide) (by decide) (by decide)⟩

/-! ## C4: shape of every synthesized drive cycle -/

/-- C4: for every positive duration and step, nonnegative maximum speed, any
minimum speed and any scenario type, the synthesized cycle has time samples
`0, dt, 2*dt, …`, strictly increasing with uniform step `dt`, all below the
duration, `time[0] = 0`, equal column lengths, and every speed in
`[0, max_speed]`. -/
theorem c4_drive_cycle_shape (sin : ℚ → ℚ) (two_pi : ℚ)
    (duration_sec dt max_speed_mps min_speed_mps : ℚ) (scenario_type : String)
    (df : DriveCycleDF)
    (hd : 0 < duration_sec) (hdt : 0 < dt) (hmax : 0 ≤ max_speed_mps)
    (hdf : df = create_cacc_optimized_drive_cycle sin two_pi duration_sec dt
      max_speed_mps min_speed_mps scenario_type) :
    df.speed.length = df.time.length ∧
    0 < df.time.length ∧
    df.time.getD 0 0 = 0 ∧
    (∀ i < df.time.length,
      df.time.getD i 0 = (i : ℚ) * dt ∧ (i : ℚ) * dt < duration_sec) ∧
    (∀ i, i + 1 < df.time.length →
      df.time.getD i 0 < df.time.getD (i + 1) 0 ∧
      df.time.getD (i + 1) 0 - df.time.getD i 0 = dt) ∧
    (∀ v ∈ df.speed, 0 ≤ v ∧ v ≤ max_speed_mps) := by
  have hceil : 0 < ⌈duration_sec / dt⌉ := Int.ceil_pos.mpr (div_pos hd hdt)
  have hlen : (arange duration_sec dt).length = Int.toNat ⌈duration_sec / dt⌉ :=
    length_arange _ _
  have hlenpos : 0 < (arange duration_sec dt).length := by rw [hlen]; omega
  have htime : df.time = arange duration_sec dt := by
    rw [hdf]
    unfold create_cacc_optimized_drive_cycle
    dsimp only
  have hspeedlen : df.speed.length = df.time.length := by
    rw [hdf]
    unfold create_cacc_optimized_drive_cycle
    dsimp only
    rw [List.length_map]
    split_ifs
    · exact length_create_highway_profile _ _ _ _ _
    · exact length_create_city_profile _ _ _
    · exact length_create_mixed_profile _ _ _
  have hsample : ∀ i < df.time.length, df.time.getD i 0 = (i : ℚ) * dt := by
    intro i hi
    rw [htime] at hi ⊢
    exact getD_arange _ _ _ hi
  refine ⟨hspeedlen, ?_, ?_, ?_, ?_, ?_⟩
  · rw [htime]; exact hlenpos
  · rw [hsample 0 (by rw [htime]; exact hlenpos)]; simp
  · intro i hi
    refine ⟨hsample i hi, ?_⟩
    rw [htime, hlen] at hi
    have hicast : (i : ℚ) < duration_sec / dt := by
      have : (i : ℤ) < ⌈duration_sec / dt⌉ := by omega
      exact_mod_cast Int.lt_ceil.mp this
    calc (i : ℚ) * dt < (duration_sec / dt) * dt :=
          mul_lt_mul_of_pos_right hicast hdt
      _ = duration_sec := div_mul_cancel₀ _ (ne_of_gt hdt)
  · intro i hi
    rw [hsample i (by omega), hsample (i + 1) hi]
    constructor
    · apply mul_lt_mul_of_pos_right _ hdt
      exact_mod_cast Nat.lt_succ_self i
    · push_cast
      ring
  · intro v hv
    have : ∃ s, v = min (max s 0) max_speed_mps := by
      rw [hdf] at hv
      unfold create_cacc_optimized_drive_cycle at hv
      dsimp only at hv
      rcases List.mem_map.mp hv with ⟨s, _, hs⟩
      exact ⟨s, hs.symm⟩
    rcases this with ⟨s, rfl⟩
    constructor
    · exact le_min (le_max_right _ _) hmax
    · exact min_le_right _ _

/-- Witness for C4 at concrete inputs. -/
theorem c4_drive_cycle_shape_witness :
    ((0 : ℚ) < 2 ∧ (0 : ℚ) < 1 ∧ (0 : ℚ) ≤ 3) ∧
      (let df := create_cacc_optimized_drive_cycle (fun _ => 0) 0 2 1 3 1 "city"
       df.speed.length = df.time.length ∧
       0 < df.time.length ∧
       df.time.getD 0 0 = 0 ∧
       (∀ i < df.time.length,
         df.time.getD i 0 = (i : ℚ) * 1 ∧ (i : ℚ) * 1 < 2) ∧
       (∀ i, i + 1 < df.time.length →
         df.time.getD i 0 < df.time.getD (i + 1) 0 ∧
         df.time.getD (i + 1) 0 - df.time.getD i 0 = 1) ∧
       (∀ v ∈ df.speed, 0 ≤ v ∧ v ≤ 3)) :=
  ⟨⟨zero_lt_two, zero_lt_one, le_of_lt zero_lt_three⟩,
    c4_drive_cycle_shape (fun _ => 0) 0 2 1 3 1 "city" _
      zero_lt_two zero_lt_one (le_of_lt zero_lt_three) rfl⟩

/-! ## C10: validation of a constant-speed series -/

theorem foldl_max_const (a : ℚ) :
    ∀ (l : List ℚ), (∀ x ∈ l, x = a) → l.foldl max a = a
  | [], _ => rfl
  | x :: xs, h => by
    have hx : x = a := h x (List.mem_cons_self _ _)
    rw [List.foldl_cons, hx, max_self]
    exact foldl_max_const a xs (fun y hy => h y (List.mem_cons_of_mem _ hy))

theorem foldl_min_const (a : ℚ) :
    ∀ (l : List ℚ), (∀ x ∈ l, x = a) → l.foldl min a = a
  | [], _ => rfl
  | x :: xs, h => by
    have hx : x = a := h x (List.mem_cons_self _ _)
    rw [List.foldl_cons, hx, min_self]
    exact foldl_min_const a xs (fun y hy => h y (List.mem_cons_of_mem _ hy))

theorem npMax_all_zero (l : List ℚ) (h : ∀ x ∈ l, x = 0) : npMax l = 0 := by
  unfold npMax
  have hd : l.headD 0 = 0 := by
    cases l with
    | nil => rfl
    | cons x xs => exact h x (List.mem_cons_self _ _)
  rw [hd]
  exact foldl_max_const 0 l h

theorem npMin_all_zero (l : List ℚ) (h : ∀ x ∈ l, x = 0) : npMin l = 0 := by
  unfold npMin
  have hd : l.headD 0 = 0 := by
    cases l with
    | nil => rfl
    | cons x xs => exact h x (List.mem_cons_self _ _)
  rw [hd]
  exact foldl_min_const 0 l h

/-- C10: `validate_drive_cycle` on a series of at least two samples with
strictly constant speed reports zero maximum acceleration and deceleration
and a steady-state percentage of 100. -/
theorem c10_validate_constant_speed (df : DriveCycleDF) (c : ℚ)
    (hlen : df.time.length = df.speed.length) (h2 : 2 ≤ df.speed.length)
    (hc : ∀ v ∈ df.speed, v = c) :
    ∃ st, validate_drive_cycle df = some st ∧
      st.max_acceleration = 0 ∧ st.max_deceleration = 0 ∧
      st.steady_state_percentage = 100 := by
  have hgetD : ∀ i, i < df.speed.length → df.speed.getD i 0 = c := by
    intro i hi
    rw [List.getD_eq_getElem _ _ hi]
    exact hc _ (List.getElem_mem hi)
  set dt := npMean (npDiff df.time) with hdt
  set grad := (List.range df.speed.length).map (fun i =>
    if i = 0 then (df.speed.getD 1 0 - df.speed.getD 0 0) / dt
    else if i = df.speed.length - 1 then
      (df.speed.getD i 0 - df.speed.getD (i - 1) 0) / dt
    else (df.speed.getD (i + 1) 0 - df.speed.getD (i - 1) 0) / (2 * dt))
    with hgrad
  have hgradzero : ∀ x ∈ grad, x = 0 := by
    intro x hx
    rw [hgrad] at hx
    rcases List.mem_map.mp hx with ⟨i, hi, rfl⟩
    have hi' : i < df.speed.length := List.mem_range.mp hi
    split_ifs with h0 hl
    · rw [hgetD 1 (by omega), hgetD 0 (by omega), sub_self, zero_div]
    · rw [hgetD i hi', hgetD (i - 1) (by omega), sub_self, zero_div]
    · rw [hgetD (i + 1) (by omega), hgetD (i - 1) (by omega), sub_self,
        zero_div]
  have hgradlen : grad.length = df.speed.length := by
    rw [hgrad, List.length_map, List.length_range]
  have hgradient : npGradient df.speed dt = some grad := by
    unfold npGradient
    rw [if_neg (by omega)]
  have htne : df.time ≠ [] := by
    intro h
    rw [h] at hlen
    simp at hlen
    omega
  have hmask : (grad.map (fun a => decide (|a| < 0.5))).countP id =
      grad.length := by
    have hall : (grad.map (fun a => decide (|a| < 0.5))).countP id =
        (grad.map (fun a => decide (|a| < 0.5))).length := by
      rw [List.countP_eq_length]
      intro b hb
      rcases List.mem_map.mp hb with ⟨a, ha, rfl⟩
      rw [hgradzero a ha]
      show decide (|(0 : ℚ)| < 0.5) = true
      rw [decide_eq_true_eq, abs_zero]
      norm_num
    rw [hall, List.length_map]
  have hval : validate_drive_cycle df = some {
      max_speed_mps := npMax df.speed
      max_speed_mph := npMax df.speed * 2.237
      min_speed_mps := npMin df.speed
      avg_speed_mps := npMean df.speed
      max_acceleration := npMax grad
      max_deceleration := npMin grad
      steady_state_percentage :=
        ((countTrue (grad.map (fun a => decide (|a| < 0.5))) : ℚ) /
          (grad.length : ℚ)) * 100
      duration_sec := df.time.getLast htne - df.time.head htne } := by
    unfold validate_drive_cycle
    dsimp only
    rw [← hdt, hgradient]
    dsimp only
    rw [List.getLast?_eq_getLast _ htne, List.head?_eq_head htne]
  refine ⟨_, hval, npMax_all_zero grad hgradzero, npMin_all_zero grad hgradzero, ?_⟩
  show ((countTrue (grad.map (fun a => decide (|a| < 0.5))) : ℚ) /
      (grad.length : ℚ)) * 100 = 100
  unfold countTrue
  rw [hmask]
  rw [div_self (by rw [hgradlen]; exact_mod_cast by omega), one_mul]

/-- Witness for C10 at the concrete constant cycle `dfConst3`. -/
theorem c10_validate_constant_speed_witness :
    (dfConst3.time.length = dfConst3.speed.length ∧ 2 ≤ dfConst3.speed.length ∧
      ∀ v ∈ dfConst3.speed, v = 4) ∧
    ∃ st, validate_drive_cycle dfConst3 = some st ∧
      st.max_acceleration = 0 ∧ st.max_deceleration = 0 ∧
      st.steady_state_percentage = 100 :=
  ⟨⟨rfl, by simp [dfConst3], by intro v hv; simp [dfConst3] at hv; exact hv⟩,
    c10_validate_constant_speed dfConst3 4 rfl (by simp [dfConst3])
      (by intro v hv; simp [dfConst3] at hv; exact hv)⟩

/-! ## Indexed access lemmas -/

theorem getD_drop (l : List ℚ) (k p : ℕ) (h : k + p < l.length) :
    (l.drop k).getD p 0 = l.getD (k + p) 0 := by
  rw [List.getD_eq_getElem _ _ (by rw [List.length_drop]; omega),
    List.getD_eq_getElem _ _ h, List.getElem_drop]

theorem getD_map (f : ℚ → ℚ) (l : List ℚ) (p : ℕ) (h : p < l.length) :
    (l.map f).getD p 0 = f (l.getD p 0) := by
  rw [List.getD_eq_getElem _ _ (by rw [List.length_map]; omega),
    List.getD_eq_getElem _ _ h, List.getElem_map]

theorem getD_zipWith_sub (xs ys : List ℚ) (p : ℕ)
    (h1 : p < xs.length) (h2 : p < ys.length) :
    (List.zipWith (fun a b => a - b) xs ys).getD p 0 =
      xs.getD p 0 - ys.getD p 0 := by
  rw [List.getD_eq_getElem _ _ (by rw [List.length_zipWith]; omega),
    List.getD_eq_getElem _ _ h1, List.getD_eq_getElem _ _ h2,
    List.getElem_zipWith]

theorem zipWith_lt_any (xs ys : List ℚ) :
    (List.zipWith (fun a b => decide (a < b)) xs ys).any id = true ↔
      ∃ p, p < xs.length ∧ p < ys.length ∧ xs.getD p 0 < ys.getD p 0 := by
  rw [List.any_eq_true]
  constructor
  · rintro ⟨b, hb, hid⟩
    rcases List.mem_iff_getElem.mp hb with ⟨p, hp, rfl⟩
    rw [id_eq, List.getElem_zipWith] at hid
    have hplen := hp
    rw [List.length_zipWith] at hplen
    refine ⟨p, by omega, by omega, ?_⟩
    rw [List.getD_eq_getElem _ _ (by omega : p < xs.length),
      List.getD_eq_getElem _ _ (by omega : p < ys.length)]
    exact of_decide_eq_true hid
  · rintro ⟨p, h1, h2, hlt⟩
    have hp : p < (List.zipWith (fun a b => decide (a < b)) xs ys).length := by
      rw [List.length_zipWith]; omega
    refine ⟨_, List.getElem_mem hp, ?_⟩
    rw [id_eq, List.getElem_zipWith]
    rw [List.getD_eq_getElem _ _ h1, List.getD_eq_getElem _ _ h2] at hlt
    exact decide_eq_true hlt

/-! ## C1: FDCW-1 outcome mapping -/

/-- C1: FDCW-1 skips exactly the logs without lead-vehicle columns, and on a
log with lead columns it fails exactly when some trimmed sample has
`lead_x - ego_x < 2.8 * (lead_speed * 2.237) ** 0.45 + 8`, passing
otherwise. -/
theorem c1_fdcw1_outcome_mapping (pow45 : ℚ → ℚ) (log : ScenarioLog)
    (hWF : log.WF) :
    (fdcw1_outcome pow45 log = Outcome.skip ↔ log.lead = none) ∧
    (fdcw1_outcome pow45 log = Outcome.fail ↔ ∃ lc, log.lead = some lc ∧
      ∃ p, p + 10 < log.time.length ∧
        lc.lead_x.getD (p + 10) 0 - lc.ego_x.getD (p + 10) 0 <
          2.8 * pow45 (lc.lead_speed.getD (p + 10) 0 * 2.237) + 8) ∧
    (fdcw1_outcome pow45 log = Outcome.pass ↔ ∃ lc, log.lead = some lc ∧
      ∀ p, p + 10 < log.time.length →
        ¬(lc.lead_x.getD (p + 10) 0 - lc.ego_x.getD (p + 10) 0 <
          2.8 * pow45 (lc.lead_speed.getD (p + 10) 0 * 2.237) + 8)) := by
  obtain ⟨hego, hlead⟩ := hWF
  cases hl : log.lead with
  | none =>
    refine ⟨by simp [fdcw1_outcome, hl], by simp [fdcw1_outcome, hl],
      by simp [fdcw1_outcome, hl]⟩
  | some lc =>
    obtain ⟨hx, hgx, hs⟩ := hlead lc (by rw [hl]; rfl)
    set n := log.time.length with hn
    set fd := List.zipWith (fun a b => a - b) (lc.lead_x.drop 10)
      (lc.ego_x.drop 10) with hfd
    set ma := ((lc.lead_speed.drop 10).map (fun v => v * 2.237)).map
      (fun v => 2.8 * pow45 v + 8) with hma
    have hout : fdcw1_outcome pow45 log =
        if (List.zipWith (fun a b => decide (a < b)) fd ma).any id then
          Outcome.fail else Outcome.pass := by
      unfold fdcw1_outcome
      rw [hl]
    have hlfd : fd.length = n - 10 := by
      rw [hfd, List.length_zipWith, List.length_drop, List.length_drop,
        hx, hgx, min_self]
    have hlma : ma.length = n - 10 := by
      rw [hma, List.length_map, List.length_map, List.length_drop, hs]
    have hfdget : ∀ p, p + 10 < n →
        fd.getD p 0 = lc.lead_x.getD (p + 10) 0 - lc.ego_x.getD (p + 10) 0 := by
      intro p hp
      rw [hfd, getD_zipWith_sub _ _ _ (by rw [List.length_drop, hx]; omega)
        (by rw [List.length_drop, hgx]; omega),
        getD_drop _ _ _ (by rw [hx]; omega),
        getD_drop _ _ _ (by rw [hgx]; omega)]
      rw [Nat.add_comm 10 p]
    have hmaget : ∀ p, p + 10 < n →
        ma.getD p 0 =
          2.8 * pow45 (lc.lead_speed.getD (p + 10) 0 * 2.237) + 8 := by
      intro p hp
      rw [hma, getD_map _ _ _ (by rw [List.length_map, List.length_drop, hs]; omega),
        getD_map _ _ _ (by rw [List.length_drop, hs]; omega),
        getD_drop _ _ _ (by rw [hs]; omega),
        Nat.add_comm 10 p]
    have hiff : (List.zipWith (fun a b => decide (a < b)) fd ma).any id = true ↔
        ∃ p, p + 10 < n ∧
          lc.lead_x.getD (p + 10) 0 - lc.ego_x.getD (p + 10) 0 <
            2.8 * pow45 (lc.lead_speed.getD (p + 10) 0 * 2.237) + 8 := by
      rw [zipWith_lt_any]
      constructor
      · rintro ⟨p, hp1, hp2, hlt⟩
        rw [hlfd] at hp1
        have hp : p + 10 < n := by omega
        exact ⟨p, hp, by rw [← hfdget p hp, ← hmaget p hp]; exact hlt⟩
      · rintro ⟨p, hp, hlt⟩
        exact ⟨p, by omega, by omega,
          by rw [hfdget p hp, hmaget p hp]; exact hlt⟩
    by_cases hany : (List.zipWith (fun a b => decide (a < b)) fd ma).any id
    · rw [hout, if_pos hany]
      refine ⟨iff_of_false (by simp) (by simp), ?_, ?_⟩
      · refine iff_of_true rfl ?_
        rcases hiff.mp hany with ⟨p, hp, hlt⟩
        exact ⟨lc, rfl, p, hp, hlt⟩
      · refine iff_of_false (by simp) ?_
        rintro ⟨lc', hlc', hall⟩
        injection hlc' with hlc'
        subst hlc'
        rcases hiff.mp hany with ⟨p, hp, hlt⟩
        exact absurd hlt (hall p hp)
    · rw [hout, if_neg hany]
      refine ⟨iff_of_false (by simp) (by simp), ?_, ?_⟩
      · refine iff_of_false (by simp) ?_
        rintro ⟨lc', hlc', p, hp, hlt⟩
        injection hlc' with hlc'
        subst hlc'
        exact hany (hiff.mpr ⟨p, hp, hlt⟩)
      · refine iff_of_true rfl ?_
        exact ⟨lc, rfl, fun p hp hlt => hany (hiff.mpr ⟨p, hp, hlt⟩)⟩

/-- Witness for C1 at the concrete log `log15`. -/
theorem c1_fdcw1_outcome_mapping_witness :
    log15.WF ∧
    ((fdcw1_outcome (fun v => v) log15 = Outcome.skip ↔ log15.lead = none) ∧
     (fdcw1_outcome (fun v => v) log15 = Outcome.fail ↔ ∃ lc,
        log15.lead = some lc ∧ ∃ p, p + 10 < log15.time.length ∧
        lc.lead_x.getD (p + 10) 0 - lc.ego_x.getD (p + 10) 0 <
          2.8 * (fun v => v) (lc.lead_speed.getD (p + 10) 0 * 2.237) + 8) ∧
     (fdcw1_outcome (fun v => v) log15 = Outcome.pass ↔ ∃ lc,
        log15.lead = some lc ∧ ∀ p, p + 10 < log15.time.length →
        ¬(lc.lead_x.getD (p + 10) 0 - lc.ego_x.getD (p + 10) 0 <
          2.8 * (fun v => v) (lc.lead_speed.getD (p + 10) 0 * 2.237) + 8))) :=
  have hWF : log15.WF := ⟨rfl, by
    intro lc h
    rw [Option.mem_def] at h
    injection h with h2
    subst h2
    exact ⟨rfl, rfl, rfl⟩⟩
  ⟨hWF, c1_fdcw1_outcome_mapping (fun v => v) log15 hWF⟩

/-! ## C7: FDCW-2 without lead columns can never fail -/

theorem mem_maskFilter (vals : List ℚ) (mask : List Bool) (x : ℚ) :
    x ∈ maskFilter vals mask →
      ∃ p, p < vals.length ∧ p < mask.length ∧
        mask.getD p false = true ∧ vals.getD p 0 = x := by
  induction vals generalizing mask with
  | nil => intro h; exact absurd h (by cases mask <;> simp [maskFilter])
  | cons v vs ih =>
    intro h
    cases mask with
    | nil => exact absurd h (by simp [maskFilter])
    | cons b bs =>
      by_cases hb : b = true
      · subst hb
        rw [maskFilter, if_pos rfl] at h
        rcases List.mem_cons.mp h with rfl | h'
        · exact ⟨0, by simp, by simp, rfl, rfl⟩
        · rcases ih bs h' with ⟨p, h1, h2, h3, h4⟩
          exact ⟨p + 1, by simpa using h1, by simpa using h2, h3, h4⟩
      · rw [Bool.not_eq_true] at hb
        subst hb
        rw [maskFilter, if_neg (by simp)] at h
        rcases ih bs h with ⟨p, h1, h2, h3, h4⟩
        exact ⟨p + 1, by simpa using h1, by simpa using h2, h3, h4⟩

theorem foldl_max_mem : ∀ (xs : List ℚ) (a : ℚ),
    xs.foldl max a = a ∨ xs.foldl max a ∈ xs
  | [], _ => Or.inl rfl
  | x :: xs, a => by
    rw [List.foldl_cons]
    rcases foldl_max_mem xs (max a x) with h | h
    · rw [h]
      rcases max_cases a x with ⟨h1, _⟩ | ⟨h1, _⟩
      · exact Or.inl h1
      · exact Or.inr (by rw [h1]; exact List.mem_cons_self _ _)
    · exact Or.inr (List.mem_cons_of_mem _ h)

theorem le_foldl_max : ∀ (xs : List ℚ) (a : ℚ), a ≤ xs.foldl max a
  | [], a => le_refl a
  | x :: xs, a => le_trans (le_max_left a x) (le_foldl_max xs (max a x))

theorem mem_le_foldl_max : ∀ (xs : List ℚ) (a y : ℚ), y ∈ xs →
    y ≤ xs.foldl max a
  | [], _, y, h => absurd h (List.not_mem_nil y)
  | x :: xs, a, y, h => by
    rw [List.foldl_cons]
    rcases List.mem_cons.mp h with rfl | h'
    · exact le_trans (le_max_right a y) (le_foldl_max xs _)
    · exact mem_le_foldl_max xs _ y h'

theorem seriesMax_mem (l : List ℚ) (m : ℚ) (h : seriesMax l = some m) :
    m ∈ l := by
  cases l with
  | nil => exact absurd h (by simp [seriesMax])
  | cons x xs =>
    rw [seriesMax] at h
    injection h with h
    subst h
    rcases foldl_max_mem xs x with h | h
    · rw [h]; exact List.mem_cons_self _ _
    · exact List.mem_cons_of_mem _ h

theorem seriesMax_is_ub (l : List ℚ) (m : ℚ) (h : seriesMax l = some m) :
    ∀ x ∈ l, x ≤ m := by
  cases l with
  | nil => intro x hx; exact absurd hx (List.not_mem_nil x)
  | cons y ys =>
    rw [seriesMax] at h
    injection h with h
    subst h
    intro x hx
    rcases List.mem_cons.mp hx with rfl | hx'
    · exact le_foldl_max ys x
    · exact mem_le_foldl_max ys y x hx'

theorem seriesMax_isSome (l : List ℚ) (h : l ≠ []) :
    ∃ m, seriesMax l = some m := by
  cases l with
  | nil => exact absurd rfl h
  | cons x xs => exact ⟨_, rfl⟩

theorem getD_zipWith_err (xs ys : List ℚ) (p : ℕ)
    (h1 : p < xs.length) (h2 : p < ys.length) :
    (List.zipWith (fun d a => |d - a| / (d + 1e-6) * 100) xs ys).getD p 0 =
      |xs.getD p 0 - ys.getD p 0| / (xs.getD p 0 + 1e-6) * 100 := by
  rw [List.getD_eq_getElem _ _ (by rw [List.length_zipWith]; omega),
    List.getD_eq_getElem _ _ h1, List.getD_eq_getElem _ _ h2,
    List.getElem_zipWith]

/-- C7: on a log without lead-vehicle columns FDCW-2 compares the ego speed
with itself, so every relative speed error is `0` and the outcome can only
be pass or skip, never a violation. -/
theorem c7_no_lead_never_fails (log : ScenarioLog) (hWF : log.WF)
    (hnone : log.lead = none) :
    (∀ p, p < (fdcw2_relative_speed_error log).length →
      (fdcw2_relative_speed_error log).getD p 0 = 0) ∧
    (fdcw2_outcome log = Outcome.pass ∨ fdcw2_outcome log = Outcome.skip) := by
  have hdes : fdcw2_desired_speed log = log.ego_speed.drop 10 := by
    unfold fdcw2_desired_speed
    rw [hnone]
  have hrse : fdcw2_relative_speed_error log =
      List.zipWith (fun d a => |d - a| / (d + 1e-6) * 100)
        (log.ego_speed.drop 10) (log.ego_speed.drop 10) := by
    unfold fdcw2_relative_speed_error fdcw2_actual_speed
    rw [hdes]
  have hzero : ∀ p, p < (fdcw2_relative_speed_error log).length →
      (fdcw2_relative_speed_error log).getD p 0 = 0 := by
    intro p hp
    rw [hrse] at hp ⊢
    rw [List.length_zipWith, min_self] at hp
    rw [getD_zipWith_err _ _ _ hp hp, sub_self, abs_zero, zero_div, zero_mul]
  refine ⟨hzero, ?_⟩
  unfold fdcw2_outcome
  dsimp only
  cases hany : (fdcw2_steady_state_mask log).any id with
  | false =>
    rw [if_pos rfl]
    exact Or.inr rfl
  | true =>
    rw [if_neg (by decide : ¬(true = false))]
    cases hmax : seriesMax (maskFilter (fdcw2_relative_speed_error log)
        (fdcw2_steady_state_mask log)) with
    | none => exact Or.inl rfl
    | some m =>
      have hm0 : m = 0 := by
        have hmem := seriesMax_mem _ _ hmax
        rcases mem_maskFilter _ _ _ hmem with ⟨p, hp1, _, _, hval⟩
        rw [← hval]
        exact hzero p hp1
      subst hm0
      left
      dsimp only
      rw [if_neg (by norm_num : ¬((10 : ℚ) < 0))]

/-- Witness for C7 at the concrete lead-less log `logNoLead14`. -/
theorem c7_no_lead_never_fails_witness :
    (logNoLead14.WF ∧ logNoLead14.lead = none) ∧
    ((∀ p, p < (fdcw2_relative_speed_error logNoLead14).length →
       (fdcw2_relative_speed_error logNoLead14).getD p 0 = 0) ∧
     (fdcw2_outcome logNoLead14 = Outcome.pass ∨
      fdcw2_outcome logNoLead14 = Outcome.skip)) :=
  have hWF : logNoLead14.WF :=
    ⟨rfl, fun lc h => absurd h (by simp [logNoLead14])⟩
  ⟨⟨hWF, rfl⟩, c7_no_lead_never_fails logNoLead14 hWF rfl⟩


/-! ## FDCW-2 plumbing lemmas -/

theorem length_pandasDiff (l : List ℚ) : (pandasDiff l).length = l.length := by
  cases l with
  | nil => rfl
  | cons x xs =>
    show (none :: (npDiff (x :: xs)).map some).length = (x :: xs).length
    rw [List.length_cons, List.length_map]
    unfold npDiff
    rw [List.length_zipWith, List.tail_cons]
    simp

theorem npDiff_getD (l : List ℚ) (q : ℕ) (h : q + 1 < l.length) :
    (npDiff l).getD q 0 = l.getD (q + 1) 0 - l.getD q 0 := by
  cases l with
  | nil => simp at h
  | cons x xs =>
    unfold npDiff
    rw [List.tail_cons]
    rw [getD_zipWith_sub _ _ _ (by simp at h ⊢; omega) (by simp at h ⊢; omega)]
    rw [List.getD_cons_succ]

theorem length_fdcw2_acceleration (log : ScenarioLog) :
    (fdcw2_acceleration log).length = (fdcw2_actual_speed log).length := by
  unfold fdcw2_acceleration
  rw [List.length_map, length_pandasDiff]

theorem length_fdcw2_actual (log : ScenarioLog) (hWF : log.WF) :
    (fdcw2_actual_speed log).length = (log.time.drop 10).length := by
  obtain ⟨hego, _⟩ := hWF
  unfold fdcw2_actual_speed
  rw [List.length_drop, List.length_drop, hego]

theorem length_fdcw2_desired (log : ScenarioLog) (hWF : log.WF) :
    (fdcw2_desired_speed log).length = (log.time.drop 10).length := by
  obtain ⟨hego, hlead⟩ := hWF
  unfold fdcw2_desired_speed
  cases hl : log.lead with
  | none => rw [List.length_drop, List.length_drop, hego]
  | some lc =>
    obtain ⟨_, _, hs⟩ := hlead lc (by rw [hl]; rfl)
    rw [List.length_drop, List.length_drop, hs]

theorem length_fdcw2_rse (log : ScenarioLog) (hWF : log.WF) :
    (fdcw2_relative_speed_error log).length = (log.time.drop 10).length := by
  unfold fdcw2_relative_speed_error
  rw [List.length_zipWith, length_fdcw2_desired log hWF,
    length_fdcw2_actual log hWF, min_self]

theorem fdcw2_rse_getD (log : ScenarioLog) (p : ℕ)
    (hdp : p < (fdcw2_desired_speed log).length)
    (hap : p < (fdcw2_actual_speed log).length) :
    (fdcw2_relative_speed_error log).getD p 0 =
      |(fdcw2_desired_speed log).getD p 0 - (fdcw2_actual_speed log).getD p 0| /
        ((fdcw2_desired_speed log).getD p 0 + 1e-6) * 100 := by
  unfold fdcw2_relative_speed_error
  exact getD_zipWith_err _ _ _ hdp hap

theorem fdcw2_accel_getD_zero (log : ScenarioLog) :
    (fdcw2_acceleration log).getD 0 none = none := by
  unfold fdcw2_acceleration
  cases hact : fdcw2_actual_speed log with
  | nil => rfl
  | cons x xs => rfl

theorem fdcw2_accel_getD (log : ScenarioLog) (p : ℕ)
    (h1 : 1 ≤ p) (hp : p < (fdcw2_actual_speed log).length) :
    (fdcw2_acceleration log).getD p none =
      some (((fdcw2_actual_speed log).getD p 0 -
        (fdcw2_actual_speed log).getD (p - 1) 0) / fdcw2_dt log) := by
  unfold fdcw2_acceleration
  cases hact : fdcw2_actual_speed log with
  | nil => rw [hact] at hp; simp at hp
  | cons x xs =>
    rw [hact] at hp
    obtain ⟨q, rfl⟩ : ∃ q, p = q + 1 := ⟨p - 1, by omega⟩
    show ((pandasDiff (x :: xs)).map
      (fun a => a.map (fun d => d / fdcw2_dt log))).getD (q + 1) none = _
    rw [pandasDiff, List.map_cons, List.getD_cons_succ]
    have hq : q < (npDiff (x :: xs)).length := by
      unfold npDiff
      rw [List.length_zipWith, List.tail_cons]
      simp at hp ⊢
      omega
    rw [List.getD_eq_getElem _ _ (by rw [List.length_map, List.length_map]; omega),
      List.getElem_map, List.getElem_map]
    show some ((npDiff (x :: xs))[q] / fdcw2_dt log) = _
    rw [← List.getD_eq_getElem _ _ hq]
    rw [npDiff_getD _ _ (by simpa using hp)]
    rw [Nat.add_sub_cancel]

theorem any_id_iff (m : List Bool) :
    m.any id = true ↔ ∃ p, p < m.length ∧ m.getD p false = true := by
  rw [List.any_eq_true]
  constructor
  · rintro ⟨b, hb, hid⟩
    rcases List.mem_iff_getElem.mp hb with ⟨p, hp, rfl⟩
    rw [id_eq] at hid
    exact ⟨p, hp, by rw [List.getD_eq_getElem _ _ hp]; exact hid⟩
  · rintro ⟨p, hp, h⟩
    refine ⟨m[p], List.getElem_mem hp, ?_⟩
    rw [id_eq]
    rw [List.getD_eq_getElem _ _ hp] at h
    exact h

theorem getD_mem_maskFilter : ∀ (vals : List ℚ) (mask : List Bool) (p : ℕ),
    p < vals.length → p < mask.length → mask.getD p false = true →
    vals.getD p 0 ∈ maskFilter vals mask
  | [], _, p, h, _, _ => absurd h (by simp)
  | _ :: _, [], p, _, h, _ => absurd h (by simp)
  | v :: vs, b :: bs, 0, _, _, hm => by
    rw [List.getD_cons_zero] at hm
    subst hm
    rw [List.getD_cons_zero, maskFilter, if_pos rfl]
    exact List.mem_cons_self _ _
  | v :: vs, b :: bs, p + 1, h1, h2, hm => by
    rw [List.getD_cons_succ] at hm
    have ih := getD_mem_maskFilter vs bs p (by simpa using h1)
      (by simpa using h2) hm
    rw [List.getD_cons_succ, maskFilter]
    cases b with
    | true => rw [if_pos rfl]; exact List.mem_cons_of_mem _ ih
    | false => rw [if_neg (by simp)]; exact ih

/-- The FDCW-2 steady-state mask at trimmed position `p`, read as the
position-level predicate `SteadyAt`. -/
theorem fdcw2_mask_getD_iff (log : ScenarioLog) (hWF : log.WF) (p : ℕ) :
    (fdcw2_steady_state_mask log).getD p false = true ↔ SteadyAt log p := by
  have hA := length_fdcw2_actual log hWF
  have hD := length_fdcw2_desired log hWF
  have hacc : (fdcw2_acceleration log).length = (log.time.drop 10).length := by
    rw [length_fdcw2_acceleration, hA]
  have hmask_eq : fdcw2_steady_state_mask log =
      List.zipWith and
        (List.zipWith and
          ((List.range (log.time.drop 10).length).map
            (fun (q : ℕ) =>
              decide (((log.time.drop 10).length : ℚ) * 0.5 ≤ ((q : ℚ) + 10))))
          ((fdcw2_acceleration log).map
            (fun a => match a with
              | none => false
              | some x => decide (|x| < 0.5))))
        ((fdcw2_desired_speed log).map (fun d => decide (1 < d))) := by
    unfold fdcw2_steady_state_mask
    dsimp only
  have hmasklen : (fdcw2_steady_state_mask log).length =
      (log.time.drop 10).length := by
    rw [hmask_eq, List.length_zipWith, List.length_zipWith, List.length_map,
      List.length_range, List.length_map, List.length_map, hacc, hD]
    omega
  by_cases hp : p < (log.time.drop 10).length
  · have hplen : p < (fdcw2_steady_state_mask log).length := by omega
    have haccp : p < (fdcw2_acceleration log).length := by omega
    have hdesp : p < (fdcw2_desired_speed log).length := by omega
    rw [List.getD_eq_getElem _ _ hplen]
    rw [List.getElem_of_eq hmask_eq]
    simp only [List.getElem_zipWith, List.getElem_map, List.getElem_range]
    rw [Bool.and_eq_true, Bool.and_eq_true, decide_eq_true_eq,
      decide_eq_true_eq]
    unfold SteadyAt
    rw [List.getD_eq_getElem _ _ haccp, List.getD_eq_getElem _ _ hdesp]
    constructor
    · rintro ⟨⟨hc1, haccb⟩, hc3⟩
      refine ⟨hp, hc1, ?_, hc3⟩
      cases hval : (fdcw2_acceleration log)[p] with
      | none => rw [hval] at haccb; exact absurd haccb (by simp)
      | some a =>
        rw [hval] at haccb
        exact ⟨a, rfl, of_decide_eq_true haccb⟩
    · rintro ⟨_, hc1, ⟨a, ha, halt⟩, hc3⟩
      refine ⟨⟨hc1, ?_⟩, hc3⟩
      rw [ha]
      exact decide_eq_true halt
  · rw [List.getD_eq_default _ _ (by omega)]
    exact iff_of_false (by simp) (fun h => absurd h.1 (by omega))

/-- C2: FDCW-2 skips exactly when no trimmed sample satisfies the
steady-state predicate; otherwise it fails exactly when some steady-state
sample has relative speed error above 10 percent (equivalently, when the
maximum steady-state error exceeds 10), and passes exactly when every
steady-state error is at most 10. -/
theorem c2_fdcw2_outcome_mapping (log : ScenarioLog) (hWF : log.WF) :
    (fdcw2_outcome log = Outcome.skip ↔ ∀ p, ¬SteadyAt log p) ∧
    (fdcw2_outcome log = Outcome.fail ↔ ∃ p, SteadyAt log p ∧
      10 < |(fdcw2_desired_speed log).getD p 0 -
          (fdcw2_actual_speed log).getD p 0| /
        ((fdcw2_desired_speed log).getD p 0 + 1e-6) * 100) ∧
    (fdcw2_outcome log = Outcome.pass ↔ (∃ p, SteadyAt log p) ∧
      ∀ p, SteadyAt log p →
        |(fdcw2_desired_speed log).getD p 0 -
            (fdcw2_actual_speed log).getD p 0| /
          ((fdcw2_desired_speed log).getD p 0 + 1e-6) * 100 ≤ 10) := by
  have hA := length_fdcw2_actual log hWF
  have hD := length_fdcw2_desired log hWF
  have hrselen := length_fdcw2_rse log hWF
  have hmasklen : (fdcw2_steady_state_mask log).length =
      (log.time.drop 10).length := by
    unfold fdcw2_steady_state_mask
    dsimp only
    rw [List.length_zipWith, List.length_zipWith, List.length_map,
      List.length_range, List.length_map, List.length_map,
      length_fdcw2_acceleration, hA, hD]
    omega
  have herr : ∀ p, SteadyAt log p →
      (fdcw2_relative_speed_error log).getD p 0 =
        |(fdcw2_desired_speed log).getD p 0 -
            (fdcw2_actual_speed log).getD p 0| /
          ((fdcw2_desired_speed log).getD p 0 + 1e-6) * 100 := by
    intro p hs
    exact fdcw2_rse_getD log p (by rw [hD]; exact hs.1) (by rw [hA]; exact hs.1)
  have hout : fdcw2_outcome log =
      if (fdcw2_steady_state_mask log).any id = false then Outcome.skip
      else
        match seriesMax (maskFilter (fdcw2_relative_speed_error log)
            (fdcw2_steady_state_mask log)) with
        | none => Outcome.pass
        | some max_error =>
          if 10 < max_error then Outcome.fail else Outcome.pass := by
    unfold fdcw2_outcome
    dsimp only
  cases hany : (fdcw2_steady_state_mask log).any id with
  | false =>
    have hnosteady : ∀ p, ¬SteadyAt log p := by
      intro p hs
      have hmem : (fdcw2_steady_state_mask log).getD p false = true :=
        (fdcw2_mask_getD_iff log hWF p).mpr hs
      have htrue : (fdcw2_steady_state_mask log).any id = true :=
        (any_id_iff _).mpr ⟨p, by rw [hmasklen]; exact hs.1, hmem⟩
      rw [hany] at htrue
      exact absurd htrue (by simp)
    rw [hout, if_pos hany]
    refine ⟨iff_of_true rfl hnosteady, ?_, ?_⟩
    · refine iff_of_false (by simp) ?_
      rintro ⟨p, hs, _⟩
      exact hnosteady p hs
    · refine iff_of_false (by simp) ?_
      rintro ⟨⟨p, hs⟩, _⟩
      exact hnosteady p hs
  | true =>
    rcases (any_id_iff _).mp hany with ⟨p0, hp0len, hp0mask⟩
    have hp0 : SteadyAt log p0 := (fdcw2_mask_getD_iff log hWF p0).mp hp0mask
    have hsome : ∃ p, SteadyAt log p := ⟨p0, hp0⟩
    have hmemfilter : ∀ p, SteadyAt log p →
        (fdcw2_relative_speed_error log).getD p 0 ∈
          maskFilter (fdcw2_relative_speed_error log)
            (fdcw2_steady_state_mask log) := by
      intro p hs
      exact getD_mem_maskFilter _ _ p (by rw [hrselen]; exact hs.1)
        (by rw [hmasklen]; exact hs.1)
        ((fdcw2_mask_getD_iff log hWF p).mpr hs)
    have hne : maskFilter (fdcw2_relative_speed_error log)
        (fdcw2_steady_state_mask log) ≠ [] := by
      intro hempty
      have hmem := hmemfilter p0 hp0
      rw [hempty] at hmem
      exact absurd hmem (List.not_mem_nil _)
    rcases seriesMax_isSome _ hne with ⟨me, hme⟩
    have hmemem := seriesMax_mem _ _ hme
    rcases mem_maskFilter _ _ _ hmemem with ⟨pm, hpm1, hpm2, hpm3, hpm4⟩
    have hpmsteady : SteadyAt log pm := (fdcw2_mask_getD_iff log hWF pm).mp hpm3
    have hmeval : me = |(fdcw2_desired_speed log).getD pm 0 -
        (fdcw2_actual_speed log).getD pm 0| /
        ((fdcw2_desired_speed log).getD pm 0 + 1e-6) * 100 := by
      rw [← hpm4, herr pm hpmsteady]
    have hub : ∀ p, SteadyAt log p →
        |(fdcw2_desired_speed log).getD p 0 -
            (fdcw2_actual_speed log).getD p 0| /
          ((fdcw2_desired_speed log).getD p 0 + 1e-6) * 100 ≤ me := by
      intro p hs
      rw [← herr p hs]
      exact seriesMax_is_ub _ _ hme _ (hmemfilter p hs)
    rw [hout, if_neg (by rw [hany]; decide), hme]
    dsimp only
    by_cases hgt : 10 < me
    · rw [if_pos hgt]
      refine ⟨iff_of_false (by simp) (fun h => h pm hpmsteady), ?_, ?_⟩
      · exact iff_of_true rfl ⟨pm, hpmsteady, by rw [← hmeval]; exact hgt⟩
      · refine iff_of_false (by simp) ?_
        rintro ⟨_, hall⟩
        have hle := hall pm hpmsteady
        rw [← hmeval] at hle
        exact absurd hgt (not_lt.mpr hle)
    · rw [if_neg hgt]
      refine ⟨iff_of_false (by simp) (fun h => h pm hpmsteady), ?_, ?_⟩
      · refine iff_of_false (by simp) ?_
        rintro ⟨p, hs, hlt⟩
        exact hgt (lt_of_lt_of_le hlt (hub p hs))
      · exact iff_of_true rfl ⟨hsome, fun p hs =>
          le_trans (hub p hs) (not_lt.mp hgt)⟩

/-- Witness for C2 at the concrete lead-less log `logNoLead14`. -/
theorem c2_fdcw2_outcome_mapping_witness :
    logNoLead14.WF ∧
    ((fdcw2_outcome logNoLead14 = Outcome.skip ↔
        ∀ p, ¬SteadyAt logNoLead14 p) ∧
     (fdcw2_outcome logNoLead14 = Outcome.fail ↔ ∃ p, SteadyAt logNoLead14 p ∧
        10 < |(fdcw2_desired_speed logNoLead14).getD p 0 -
            (fdcw2_actual_speed logNoLead14).getD p 0| /
          ((fdcw2_desired_speed logNoLead14).getD p 0 + 1e-6) * 100) ∧
     (fdcw2_outcome logNoLead14 = Outcome.pass ↔
        (∃ p, SteadyAt logNoLead14 p) ∧ ∀ p, SteadyAt logNoLead14 p →
          |(fdcw2_desired_speed logNoLead14).getD p 0 -
              (fdcw2_actual_speed logNoLead14).getD p 0| /
            ((fdcw2_desired_speed logNoLead14).getD p 0 + 1e-6) * 100 ≤ 10)) :=
  have hWF : logNoLead14.WF :=
    ⟨rfl, fun lc h => absurd h (by simp [logNoLead14])⟩
  ⟨hWF, c2_fdcw2_outcome_mapping logNoLead14 hWF⟩

/-! ## C3: the actual steady-state classification (amended) -/

/-- C3 (amended): a trimmed sample at position `p` is classified
steady-state iff its original row label `p + 10` is at least half the
trimmed length (`len(df) ≤ 2 * (p + 10)`, i.e. the last 50 percent shifted
left by the ten trimmed rows — not the last 50 percent of the trimmed log),
`p ≥ 1` (the first trimmed sample has no defined first difference), the
first-difference acceleration has absolute value below `0.5`, and the
desired speed exceeds `1`. -/
theorem c3_steady_state_classification (log : ScenarioLog) (hWF : log.WF)
    (p : ℕ) :
    (fdcw2_steady_state_mask log).getD p false = true ↔
      (p < (log.time.drop 10).length ∧
       (log.time.drop 10).length ≤ 2 * (p + 10) ∧
       1 ≤ p ∧
       |(log.ego_speed.getD (p + 10) 0 - log.ego_speed.getD (p + 9) 0) /
         fdcw2_dt log| < 0.5 ∧
       1 < (fdcw2_desired_speed log).getD p 0) := by
  have hA := length_fdcw2_actual log hWF
  have hego : log.ego_speed.length = log.time.length := hWF.1
  have hld : (log.time.drop 10).length = log.time.length - 10 := by
    rw [List.length_drop]
  have hcast : (((log.time.drop 10).length : ℚ) * 0.5 ≤ ((p : ℚ) + 10)) ↔
      ((log.time.drop 10).length ≤ 2 * (p + 10)) := by
    constructor
    · intro h
      have h2 : ((log.time.drop 10).length : ℚ) ≤ ((2 * (p + 10) : ℕ) : ℚ) := by
        push_cast
        linarith
      exact_mod_cast h2
    · intro h
      have h2 : ((log.time.drop 10).length : ℚ) ≤ ((2 * (p + 10) : ℕ) : ℚ) := by
        exact_mod_cast h
      push_cast at h2
      linarith
  have hact1 : p < (log.time.drop 10).length →
      (fdcw2_actual_speed log).getD p 0 = log.ego_speed.getD (p + 10) 0 := by
    intro h1
    show (log.ego_speed.drop 10).getD p 0 = _
    rw [getD_drop _ _ _ (by omega)]
    rw [Nat.add_comm]
  have hact0 : 1 ≤ p → p < (log.time.drop 10).length →
      (fdcw2_actual_speed log).getD (p - 1) 0 =
        log.ego_speed.getD (p + 9) 0 := by
    intro h3 h1
    show (log.ego_speed.drop 10).getD (p - 1) 0 = _
    rw [getD_drop _ _ _ (by omega)]
    congr 1
    omega
  rw [fdcw2_mask_getD_iff log hWF p]
  unfold SteadyAt
  constructor
  · rintro ⟨h1, h2, ⟨a, ha, halt⟩, h4⟩
    have hp1 : 1 ≤ p := by
      by_contra h0
      have hz : p = 0 := by omega
      subst hz
      rw [fdcw2_accel_getD_zero] at ha
      exact Option.noConfusion ha
    have haval := fdcw2_accel_getD log p hp1 (by rw [hA]; exact h1)
    rw [haval] at ha
    injection ha with ha
    refine ⟨h1, hcast.mp h2, hp1, ?_, h4⟩
    rw [← hact1 h1, ← hact0 hp1 h1, ha]
    exact halt
  · rintro ⟨h1, h2, h3, h4, h5⟩
    refine ⟨h1, hcast.mpr h2, ?_, h5⟩
    refine ⟨_, fdcw2_accel_getD log p h3 (by rw [hA]; exact h1), ?_⟩
    rw [hact1 h1, hact0 h3 h1]
    exact h4

/-- Witness for C3 at the concrete log `logNoLead14`. -/
theorem c3_steady_state_classification_witness :
    logNoLead14.WF ∧
    ((fdcw2_steady_state_mask logNoLead14).getD 1 false = true ↔
      (1 < (logNoLead14.time.drop 10).length ∧
       (logNoLead14.time.drop 10).length ≤ 2 * (1 + 10) ∧
       1 ≤ 1 ∧
       |(logNoLead14.ego_speed.getD (1 + 10) 0 -
           logNoLead14.ego_speed.getD (1 + 9) 0) / fdcw2_dt logNoLead14| < 0.5 ∧
       1 < (fdcw2_desired_speed logNoLead14).getD 1 0)) :=
  have hWF : logNoLead14.WF :=
    ⟨rfl, fun lc h => absurd h (by simp [logNoLead14])⟩
  ⟨hWF, c3_steady_state_classification logNoLead14 hWF 1⟩

/-- Counterexample to C3 as stated: in `logNoLead14` (trimmed length 4) the
sample at trimmed position 1 is classified steady-state by the code, yet
position 1 is not in the last 50 percent of the trimmed log
(`1 < 4 * 0.5`): the code compares the index label `p + 10`, not the
position, with half the trimmed length. -/
theorem c3_steady_state_claim_counterexample :
    (fdcw2_steady_state_mask logNoLead14).getD 1 false = true ∧
    ¬(((logNoLead14.time.drop 10).length : ℚ) * 0.5 ≤ (1 : ℚ)) := by
  have hWF : logNoLead14.WF :=
    ⟨rfl, fun lc h => absurd h (by simp [logNoLead14])⟩
  have hM : (logNoLead14.time.drop 10).length = 4 := rfl
  constructor
  · rw [fdcw2_mask_getD_iff logNoLead14 hWF 1]
    have hval := fdcw2_accel_getD logNoLead14 1 le_rfl
      (by show 1 < (logNoLead14.ego_speed.drop 10).length; decide)
    refine ⟨by rw [hM]; omega, by rw [hM]; norm_num,
      ⟨0, ?_, by rw [abs_zero]; norm_num⟩, ?_⟩
    · rw [hval]
      rw [show (fdcw2_actual_speed logNoLead14).getD 1 0 = 5 from rfl,
        show (fdcw2_actual_speed logNoLead14).getD (1 - 1) 0 = 5 from rfl]
      norm_num
    · rw [show (fdcw2_desired_speed logNoLead14).getD 1 0 = 5 from rfl]
      norm_num
  · rw [hM]
    norm_num

/-! ## C8: label/position confusion crashes the FDCW-1 failure report -/

/-- C8: `log15` has lead columns, its first FDCW-1 violation is at trimmed
position 0, which lies among the last 10 trimmed samples (the trimmed log
has only 5), and the failure-report computation hits an out-of-range
positional lookup (the label `10` returned by `idxmax` used as an `iloc`
position), so no violation report is produced.  The hypothesis on `pow45`
(that the modelled power `0 ** 0.45` is nonnegative, in fact it is `0`)
makes every trimmed sample violate. -/
theorem c8_idxmax_iloc_out_of_bounds (pow45 : ℚ → ℚ) (hpow : 0 ≤ pow45 0) :
    fdcw1_outcome pow45 log15 = Outcome.fail ∧
    fdcw1_first_violation pow45 log15 = some 0 ∧
    (log15.time.drop 10).length ≤ 0 + 10 ∧
    fdcw1_report pow45 log15 = none := by
  have h5 : (5 : ℚ) < 2.8 * pow45 0 + 8 := by
    have h28 : (0 : ℚ) ≤ 2.8 * pow45 0 := mul_nonneg (by norm_num) hpow
    linarith
  refine ⟨?_, ?_, by decide, ?_⟩
  · simp [fdcw1_outcome, log15, leadCols15, h5]
  · simp [fdcw1_first_violation, log15, leadCols15, h5]
  · simp [fdcw1_report, log15, leadCols15, h5, idxmaxBool10]

/-- Witness for C8 with the power function instantiated to the constant 0
(the value the real `0 ** 0.45` takes at the lead speed 0 of `log15`). -/
theorem c8_idxmax_iloc_out_of_bounds_witness :
    ((0 : ℚ) ≤ (fun _ => (0 : ℚ)) 0) ∧
    (fdcw1_outcome (fun _ => (0 : ℚ)) log15 = Outcome.fail ∧
     fdcw1_first_violation (fun _ => (0 : ℚ)) log15 = some 0 ∧
     (log15.time.drop 10).length ≤ 0 + 10 ∧
     fdcw1_report (fun _ => (0 : ℚ)) log15 = none) :=
  ⟨le_refl 0, c8_idxmax_iloc_out_of_bounds (fun _ => (0 : ℚ)) (le_refl 0)⟩

/-! ## C5: the FDCW-1 failure report does not describe the first violation -/

/-- C5 (code bug): in `log31` every trimmed sample violates FDCW-1; the
first violation is at trimmed position 0 (time 1 s, following distance
5 m), but the produced report carries the quantities of trimmed position
10 (time 2 s, following distance 4 m): `idxmax` returns the index label
`0 + 10`, which the code reuses as an `iloc` position. -/
theorem c5_report_not_first_violation (pow45 : ℚ → ℚ) (hpow : 0 ≤ pow45 0) :
    fdcw1_outcome pow45 log31 = Outcome.fail ∧
    fdcw1_first_violation pow45 log31 = some 0 ∧
    (leadCols31.lead_x.drop 10).getD 0 0 -
      (leadCols31.ego_x.drop 10).getD 0 0 = 5 ∧
    (log31.time.drop 10).getD 0 0 = 1 ∧
    ∃ r, fdcw1_report pow45 log31 = some r ∧
      r.following_distance = 4 ∧ r.time = 2 := by
  have h28 : (0 : ℚ) ≤ 2.8 * pow45 0 := mul_nonneg (by norm_num) hpow
  have h5 : (5 : ℚ) < 2.8 * pow45 0 + 8 := by linarith
  have h4 : (4 : ℚ) < 2.8 * pow45 0 + 8 := by linarith
  refine ⟨?_, ?_, by norm_num [leadCols31], by norm_num [log31], ?_⟩
  · simp [fdcw1_outcome, log31, leadCols31, h5, h4]
  · simp [fdcw1_first_violation, log31, leadCols31, h5, h4]
  · refine ⟨⟨2, 4, 2.8 * pow45 0 + 8, 0⟩, ?_, rfl, rfl⟩
    simp [fdcw1_report, log31, leadCols31, h5, h4, idxmaxBool10,
      List.findIdx_cons]

/-- Witness for C5 with the power function instantiated to the constant 0. -/
theorem c5_report_not_first_violation_witness :
    ((0 : ℚ) ≤ (fun _ => (0 : ℚ)) 0) ∧
    (fdcw1_outcome (fun _ => (0 : ℚ)) log31 = Outcome.fail ∧
     fdcw1_first_violation (fun _ => (0 : ℚ)) log31 = some 0 ∧
     (leadCols31.lead_x.drop 10).getD 0 0 -
       (leadCols31.ego_x.drop 10).getD 0 0 = 5 ∧
     (log31.time.drop 10).getD 0 0 = 1 ∧
     ∃ r, fdcw1_report (fun _ => (0 : ℚ)) log31 = some r ∧
       r.following_distance = 4 ∧ r.time = 2) :=
  ⟨le_refl 0, c5_report_not_first_violation (fun _ => (0 : ℚ)) (le_refl 0)⟩

/-! ## C6: the city profile (counterexample and structure lemmas) -/

/-- Counterexample to C6 as stated: with `duration = 30`, `dt = 1` the city
profile is identically zero (the loop processes `int(30 / 1000) = 0`
cycles, because the cycle length is hard-coded as `20 / 0.02 = 1000`
samples, not 20 seconds of the actual time axis), while the claimed
20-second stop-and-go description puts the sample with cycle-local elapsed
time 5 s at the ramp endpoint `0.6 * max = 6`. -/
theorem c6_city_claim_counterexample :
    (create_city_profile (arange 30 1) 10 5).getD 5 0 = 0 ∧
    city_spec_speed 10 ((5 : ℕ) * (1 : ℚ)) = 6 ∧ (0 : ℚ) ≠ 6 := by
  have hlen : (arange 30 1).length = 30 := by
    rw [length_arange]
    norm_num
    rfl
  refine ⟨?_, ?_, by norm_num⟩
  · unfold create_city_profile
    dsimp only
    rw [hlen]
    rw [show Int.toNat ⌊((30 : ℕ) : ℚ) / (20 / 0.02)⌋ = 0 by norm_num]
    rw [List.range_zero, List.foldl_nil]
    rw [List.getD_eq_getElem _ _ (by rw [List.length_replicate]; omega)]
    exact List.getElem_replicate ..
  · unfold city_spec_speed
    norm_num

theorem countP_range_char (n : ℕ) (p : ℕ → Prop) [DecidablePred p]
    (hmono : ∀ i j : ℕ, i ≤ j → p j → p i) :
    (List.range n).countP (fun i => decide (p i)) ≤ n ∧
    ∀ i, i < n → (p i ↔ i < (List.range n).countP (fun i => decide (p i))) := by
  induction n with
  | zero =>
    refine ⟨by simp, fun i hi => absurd hi (by omega)⟩
  | succ n ih =>
    rcases ih with ⟨ihle, ihchar⟩
    rw [List.range_succ, List.countP_append]
    by_cases hp : p n
    · have hcnt : (List.range n).countP (fun i => decide (p i)) = n := by
        have hall : ∀ a ∈ List.range n, (fun i => decide (p i)) a = true := by
          intro a ha
          exact decide_eq_true (hmono a n (le_of_lt (List.mem_range.mp ha)) hp)
        calc (List.range n).countP (fun i => decide (p i))
            = (List.range n).length := List.countP_eq_length.mpr hall
          _ = n := List.length_range n
      have hone : List.countP (fun i => decide (p i)) [n] = 1 := by
        simp [List.countP_cons, hp]
      rw [hcnt, hone]
      refine ⟨by omega, fun i hi => ?_⟩
      constructor
      · intro _; omega
      · intro _
        rcases Nat.lt_succ_iff_lt_or_eq.mp hi with h | h
        · exact hmono i n (by omega) hp
        · subst h; exact hp
    · have hzero : List.countP (fun i => decide (p i)) [n] = 0 := by
        simp [List.countP_cons, hp]
      rw [hzero, Nat.add_zero]
      refine ⟨by omega, fun i hi => ?_⟩
      rcases Nat.lt_succ_iff_lt_or_eq.mp hi with h | h
      · exact ihchar i h
      · subst h
        exact iff_of_false hp (by omega)

theorem cityCountLe_le (dt T : ℚ) : cityCountLe dt T ≤ 1000 := by
  unfold cityCountLe
  calc (List.range 1000).countP (fun (k : ℕ) => decide ((k : ℚ) * dt ≤ T))
      ≤ (List.range 1000).length := List.countP_le_length _
    _ = 1000 := List.length_range 1000

theorem cityCountLe_char (dt : ℚ) (hdt : 0 < dt) (T : ℚ) :
    ∀ c : ℕ, c < 1000 → (((c : ℚ) * dt ≤ T) ↔ c < cityCountLe dt T) := by
  have hmono : ∀ i j : ℕ, i ≤ j → ((j : ℚ) * dt ≤ T) → ((i : ℚ) * dt ≤ T) := by
    intro i j hij hj
    have hmul : (i : ℚ) * dt ≤ (j : ℚ) * dt := by
      apply mul_le_mul_of_nonneg_right _ (le_of_lt hdt)
      exact_mod_cast hij
    linarith
  unfold cityCountLe
  exact (countP_range_char 1000 (fun k => (k : ℚ) * dt ≤ T) hmono).2

theorem cityCountLe_mono (dt : ℚ) (hdt : 0 < dt) (T1 T2 : ℚ) (h : T1 ≤ T2) :
    cityCountLe dt T1 ≤ cityCountLe dt T2 := by
  obtain ⟨A1, hA1⟩ : ∃ a, cityCountLe dt T1 = a := ⟨_, rfl⟩
  obtain ⟨A2, hA2⟩ : ∃ a, cityCountLe dt T2 = a := ⟨_, rfl⟩
  rw [hA1, hA2]
  rcases Nat.eq_zero_or_pos A1 with h0 | h0
  · omega
  · have hle := cityCountLe_le dt T1
    rw [hA1] at hle
    have hc : A1 - 1 < 1000 := by omega
    have h1 : ((A1 - 1 : ℕ) : ℚ) * dt ≤ T1 := by
      have hch := (cityCountLe_char dt hdt T1 (A1 - 1) hc).mpr
      rw [hA1] at hch
      exact hch (by omega)
    have h2 := (cityCountLe_char dt hdt T2 (A1 - 1) hc).mp (le_trans h1 h)
    rw [hA2] at h2
    omega

theorem cityCountLe_pos (dt : ℚ) (hdt : 0 < dt) (T : ℚ) (hT : 0 ≤ T) :
    0 < cityCountLe dt T := by
  have h0 : ((0 : ℕ) : ℚ) * dt ≤ T := by
    rw [Nat.cast_zero, zero_mul]
    exact hT
  exact (cityCountLe_char dt hdt T 0 (by norm_num)).mp h0

theorem maskAssign_nil_mask (xs v : List ℚ) : maskAssign xs [] v = xs := by
  cases xs <;> simp [maskAssign]

theorem maskAssign_nil_list (m : List Bool) (v : List ℚ) :
    maskAssign [] m v = [] := by
  cases m <;> cases v <;> simp [maskAssign]

theorem maskAssign_nil_vals (xs : List ℚ) (m : List Bool) :
    maskAssign xs m [] = xs := by
  induction xs generalizing m with
  | nil => exact maskAssign_nil_list m []
  | cons x xs ih =>
    cases m with
    | nil => simp [maskAssign]
    | cons b ms => cases b <;> simp [maskAssign, ih]

theorem maskAssign_false_run (k : ℕ) (xs : List ℚ) (m : List Bool)
    (v : List ℚ) :
    maskAssign xs (List.replicate k false ++ m) v =
      xs.take k ++ maskAssign (xs.drop k) m v := by
  induction k generalizing xs with
  | zero => simp
  | succ k ih =>
    cases xs with
    | nil => simp [maskAssign_nil_list]
    | cons x xs =>
      simp only [List.replicate_succ, List.cons_append, maskAssign,
        List.take_succ_cons, List.drop_succ_cons, List.append_eq]
      rw [ih]

theorem maskAssign_true_exact (k : ℕ) (xs : List ℚ) (m : List Bool)
    (v : List ℚ) (hv : v.length = k) (hk : k ≤ xs.length) :
    maskAssign xs (List.replicate k true ++ m) v =
      v ++ maskAssign (xs.drop k) m [] := by
  induction k generalizing xs v with
  | zero =>
    rcases List.length_eq_zero.mp hv with rfl
    simp
  | succ k ih =>
    cases xs with
    | nil => simp at hk
    | cons x xs =>
      cases v with
      | nil => simp at hv
      | cons a as =>
        simp only [List.replicate_succ, List.cons_append, maskAssign,
          List.drop_succ_cons, List.append_eq]
        rw [ih xs as (by simpa using hv) (by simpa using hk)]

theorem maskAssign_all_false (r : ℕ) (xs v : List ℚ) :
    maskAssign xs (List.replicate r false) v = xs := by
  have h := maskAssign_false_run r xs [] v
  rw [List.append_nil] at h
  rw [h, maskAssign_nil_mask, List.take_append_drop]

theorem maskAssignConst_nil_mask (xs : List ℚ) (c : ℚ) :
    maskAssignConst xs [] c = xs := by
  cases xs <;> simp [maskAssignConst]

theorem maskAssignConst_false_run (k : ℕ) (xs : List ℚ) (m : List Bool)
    (c : ℚ) :
    maskAssignConst xs (List.replicate k false ++ m) c =
      xs.take k ++ maskAssignConst (xs.drop k) m c := by
  induction k generalizing xs with
  | zero => simp
  | succ k ih =>
    cases xs with
    | nil => simp [maskAssignConst]
    | cons x xs =>
      simp only [List.replicate_succ, List.cons_append, maskAssignConst,
        List.take_succ_cons, List.drop_succ_cons, List.append_eq]
      rw [ih]
      simp

theorem maskAssignConst_true_run (k : ℕ) (xs : List ℚ) (m : List Bool)
    (c : ℚ) (hk : k ≤ xs.length) :
    maskAssignConst xs (List.replicate k true ++ m) c =
      List.replicate k c ++ maskAssignConst (xs.drop k) m c := by
  induction k generalizing xs with
  | zero => simp
  | succ k ih =>
    cases xs with
    | nil => simp at hk
    | cons x xs =>
      simp only [List.replicate_succ, List.cons_append, maskAssignConst,
        List.drop_succ_cons, List.append_eq, if_true]
      rw [ih xs (by simpa using hk)]

theorem maskAssignConst_all_false (r : ℕ) (xs : List ℚ) (c : ℚ) :
    maskAssignConst xs (List.replicate r false) c = xs := by
  have h := maskAssignConst_false_run r xs [] c
  rw [List.append_nil] at h
  rw [h, maskAssignConst_nil_mask, List.take_append_drop]

theorem countTrue_replicate_true (n : ℕ) :
    countTrue (List.replicate n true) = n := by
  unfold countTrue
  calc (List.replicate n true).countP id
      = (List.replicate n true).length :=
        List.countP_eq_length.mpr (by
          intro a ha
          rw [List.eq_of_mem_replicate ha]
          rfl)
    _ = n := List.length_replicate n true

theorem countTrue_replicate_false (n : ℕ) :
    countTrue (List.replicate n false) = 0 := by
  unfold countTrue
  rw [List.countP_eq_zero]
  intro a ha
  rw [List.eq_of_mem_replicate ha]
  simp

theorem countTrue_append (l1 l2 : List Bool) :
    countTrue (l1 ++ l2) = countTrue l1 + countTrue l2 := by
  unfold countTrue
  exact List.countP_append _ _ _

theorem any_id_replicate_true (n : ℕ) (h : 0 < n) (rest : List Bool) :
    ((List.replicate n true) ++ rest).any id = true := by
  rcases n with _ | n
  · omega
  · simp [List.replicate_succ]

theorem any_id_replicate_false (n : ℕ) (rest : List Bool) :
    ((List.replicate n false) ++ rest).any id = rest.any id := by
  induction n with
  | zero => simp
  | succ n ih => simpa [List.replicate_succ] using ih

theorem any_id_rep_false (n : ℕ) : (List.replicate n false).any id = false := by
  have h := any_id_replicate_false n []
  rw [List.append_nil] at h
  simp [h]

theorem city_le_mask_shape (dt T : ℚ) (hdt : 0 < dt) :
    ((List.range 1000).map (fun (c : ℕ) => (c : ℚ) * dt)).map
        (fun t => decide (t ≤ T)) =
      List.replicate (cityCountLe dt T) true ++
        List.replicate (1000 - cityCountLe dt T) false := by
  have hle := cityCountLe_le dt T
  have hchar := cityCountLe_char dt hdt T
  apply List.ext_getElem
  · simp only [List.length_map, List.length_range, List.length_append,
      List.length_replicate]
    omega
  · intro i h1 h2
    simp only [List.length_map, List.length_range] at h1
    simp only [List.getElem_map, List.getElem_range]
    by_cases hi : i < cityCountLe dt T
    · rw [List.getElem_append_left (by simp only [List.length_replicate]; omega),
        List.getElem_replicate]
      exact decide_eq_true ((hchar i h1).mpr hi)
    · rw [List.getElem_append_right (by simp only [List.length_replicate]; omega),
        List.getElem_replicate]
      exact decide_eq_false (fun hcon => hi ((hchar i h1).mp hcon))

theorem city_band_mask_shape (dt T1 T2 : ℚ) (hdt : 0 < dt) (hT : T1 ≤ T2) :
    ((List.range 1000).map (fun (c : ℕ) => (c : ℚ) * dt)).map
        (fun t => decide (T1 < t) && decide (t ≤ T2)) =
      List.replicate (cityCountLe dt T1) false ++
        (List.replicate (cityCountLe dt T2 - cityCountLe dt T1) true ++
          List.replicate (1000 - cityCountLe dt T2) false) := by
  have hle1 := cityCountLe_le dt T1
  have hle2 := cityCountLe_le dt T2
  have hmono := cityCountLe_mono dt hdt T1 T2 hT
  have hchar1 := cityCountLe_char dt hdt T1
  have hchar2 := cityCountLe_char dt hdt T2
  apply List.ext_getElem
  · simp only [List.length_map, List.length_range, List.length_append,
      List.length_replicate]
    omega
  · intro i h1 h2
    simp only [List.length_map, List.length_range] at h1
    simp only [List.getElem_map, List.getElem_range]
    by_cases hi1 : i < cityCountLe dt T1
    · rw [List.getElem_append_left (by simp only [List.length_replicate]; omega),
        List.getElem_replicate]
      have hle : (i : ℚ) * dt ≤ T1 := (hchar1 i h1).mpr hi1
      rw [decide_eq_false (not_lt.mpr hle), Bool.false_and]
    · rw [List.getElem_append_right
        (by simp only [List.length_replicate]; omega)]
      simp only [List.length_replicate]
      by_cases hi2 : i < cityCountLe dt T2
      · rw [List.getElem_append_left (by simp only [List.length_replicate]; omega),
          List.getElem_replicate]
        have hgt : T1 < (i : ℚ) * dt :=
          not_le.mp (fun hcon => hi1 ((hchar1 i h1).mp hcon))
        have hle : (i : ℚ) * dt ≤ T2 := (hchar2 i h1).mpr hi2
        rw [decide_eq_true hgt, decide_eq_true hle, Bool.true_and]
      · rw [List.getElem_append_right
          (by simp only [List.length_replicate]; omega),
          List.getElem_replicate]
        have hgt : ¬((i : ℚ) * dt ≤ T2) :=
          fun hcon => hi2 ((hchar2 i h1).mp hcon)
        rw [decide_eq_false hgt, Bool.and_false]

theorem city_gt_mask_shape (dt T : ℚ) (hdt : 0 < dt) :
    ((List.range 1000).map (fun (c : ℕ) => (c : ℚ) * dt)).map
        (fun t => decide (T < t)) =
      List.replicate (cityCountLe dt T) false ++
        List.replicate (1000 - cityCountLe dt T) true := by
  have hle := cityCountLe_le dt T
  have hchar := cityCountLe_char dt hdt T
  apply List.ext_getElem
  · simp only [List.length_map, List.length_range, List.length_append,
      List.length_replicate]
    omega
  · intro i h1 h2
    simp only [List.length_map, List.length_range] at h1
    simp only [List.getElem_map, List.getElem_range]
    by_cases hi : i < cityCountLe dt T
    · rw [List.getElem_append_left (by simp only [List.length_replicate]; omega),
        List.getElem_replicate]
      exact decide_eq_false (not_lt.mpr ((hchar i h1).mpr hi))
    · rw [List.getElem_append_right (by simp only [List.length_replicate]; omega),
        List.getElem_replicate]
      exact decide_eq_true (not_le.mp (fun hcon => hi ((hchar i h1).mp hcon)))

theorem take_append_of_len (l1 l2 : List ℚ) (k : ℕ) (h : l1.length = k) :
    (l1 ++ l2).take k = l1 := by
  subst h
  exact List.take_left l1 l2

theorem take_append_add (l1 l2 : List ℚ) (k : ℕ) (h : l1.length ≤ k) :
    (l1 ++ l2).take k = l1 ++ l2.take (k - l1.length) := by
  induction l1 generalizing k with
  | nil => simp
  | cons x l1 ih =>
    cases k with
    | zero => simp at h
    | succ k =>
      simp only [List.cons_append, List.take_succ_cons]
      rw [show k + 1 - (x :: l1).length = k - l1.length by
        simp only [List.length_cons]; omega]
      rw [ih k (by simp only [List.length_cons] at h; omega)]

theorem drop_append_add (l1 l2 : List ℚ) (k : ℕ) (h : l1.length ≤ k) :
    (l1 ++ l2).drop k = l2.drop (k - l1.length) := by
  induction l1 generalizing k with
  | nil => simp
  | cons x l1 ih =>
    cases k with
    | zero => simp at h
    | succ k =>
      simp only [List.cons_append, List.drop_succ_cons]
      rw [show k + 1 - (x :: l1).length = k - l1.length by
        simp only [List.length_cons]; omega]
      rw [ih k (by simp only [List.length_cons] at h; omega)]

theorem drop_replicate_q (n k : ℕ) (a : ℚ) :
    (List.replicate n a).drop k = List.replicate (n - k) a := by
  induction k generalizing n with
  | zero => simp
  | succ k ih =>
    cases n with
    | zero => simp
    | succ n =>
      rw [List.replicate_succ, List.drop_succ_cons, ih]
      congr 1
      omega

theorem getD_append_left_q (l1 l2 : List ℚ) (i : ℕ) (h : i < l1.length) :
    (l1 ++ l2).getD i 0 = l1.getD i 0 := by
  rw [List.getD_eq_getElem _ _ (by rw [List.length_append]; omega),
    List.getD_eq_getElem _ _ h, List.getElem_append_left h]

theorem getD_append_right_q (l1 l2 : List ℚ) (i : ℕ) (h : l1.length ≤ i) :
    (l1 ++ l2).getD i 0 = l2.getD (i - l1.length) 0 := by
  by_cases h2 : i - l1.length < l2.length
  · rw [List.getD_eq_getElem _ _ (by rw [List.length_append]; omega),
      List.getD_eq_getElem _ _ h2, List.getElem_append_right h]
  · rw [List.getD_eq_default _ _ (by rw [List.length_append]; omega),
      List.getD_eq_default _ _ (by omega)]

theorem getD_replicate_q (n : ℕ) (a : ℚ) (i : ℕ) (h : i < n) :
    (List.replicate n a).getD i 0 = a := by
  rw [List.getD_eq_getElem _ _ (by rw [List.length_replicate]; omega),
    List.getElem_replicate]

theorem drop_drop_q (l : List ℚ) (a b : ℕ) : (l.drop a).drop b = l.drop (a + b) := by
  induction a generalizing l with
  | zero => simp
  | succ a ih =>
    cases l with
    | nil => simp
    | cons x xs =>
      rw [List.drop_succ_cons, ih, show a + 1 + b = (a + b) + 1 by omega,
        List.drop_succ_cons]

theorem headAssign_eq (s v : List ℚ) (A : ℕ) (hlen : s.length = 1000)
    (hA : 0 < A) (hA2 : A ≤ 1000) (hv : v.length = A) :
    (if (List.replicate A true ++ List.replicate (1000 - A) false).any id then
       maskAssign s (List.replicate A true ++ List.replicate (1000 - A) false) v
     else s) = v ++ s.drop A := by
  rw [if_pos (any_id_replicate_true A hA _)]
  rw [maskAssign_true_exact A s _ v hv (by omega)]
  rw [maskAssign_nil_vals]

theorem bandAssign_eq (s v : List ℚ) (A B : ℕ) (hlen : s.length = 1000)
    (hAB : A ≤ B) (hB : B ≤ 1000) (hv : v.length = B - A) :
    (if (List.replicate A false ++ (List.replicate (B - A) true ++
          List.replicate (1000 - B) false)).any id then
       maskAssign s (List.replicate A false ++ (List.replicate (B - A) true ++
         List.replicate (1000 - B) false)) v
     else s) = s.take A ++ (v ++ s.drop B) := by
  by_cases hb : A < B
  · rw [if_pos (by rw [any_id_replicate_false]; exact any_id_replicate_true _ (by omega) _)]
    rw [maskAssign_false_run]
    rw [maskAssign_true_exact _ _ _ _ hv (by rw [List.length_drop, hlen]; omega)]
    rw [maskAssign_nil_vals, drop_drop_q, show A + (B - A) = B by omega]
  · have hAB2 : A = B := by omega
    subst hAB2
    have hv0 : v = [] := List.length_eq_zero.mp (by omega)
    subst hv0
    simp only [Nat.sub_self, List.replicate_zero, List.nil_append]
    rw [if_neg (by rw [any_id_replicate_false, any_id_rep_false]; exact Bool.false_ne_true)]
    exact (List.take_append_drop A s).symm

theorem bandAssignConst_eq (s : List ℚ) (A B : ℕ) (c : ℚ) (hlen : s.length = 1000)
    (hAB : A ≤ B) (hB : B ≤ 1000) :
    (if (List.replicate A false ++ (List.replicate (B - A) true ++
          List.replicate (1000 - B) false)).any id then
       maskAssignConst s (List.replicate A false ++ (List.replicate (B - A) true ++
         List.replicate (1000 - B) false)) c
     else s) = s.take A ++ (List.replicate (B - A) c ++ s.drop B) := by
  by_cases hb : A < B
  · rw [if_pos (by rw [any_id_replicate_false]; exact any_id_replicate_true _ (by omega) _)]
    rw [maskAssignConst_false_run]
    rw [maskAssignConst_true_run _ _ _ _ (by rw [List.length_drop, hlen]; omega)]
    rw [maskAssignConst_all_false, drop_drop_q, show A + (B - A) = B by omega]
  · have hAB2 : A = B := by omega
    subst hAB2
    simp only [Nat.sub_self, List.replicate_zero, List.nil_append]
    rw [if_neg (by rw [any_id_replicate_false, any_id_rep_false]; exact Bool.false_ne_true)]
    exact (List.take_append_drop A s).symm

theorem any_id_rep_true (n : ℕ) (h : 0 < n) :
    (List.replicate n true).any id = true := by
  have h2 := any_id_replicate_true n h []
  rwa [List.append_nil] at h2

theorem tailAssignConst_eq (s : List ℚ) (A : ℕ) (c : ℚ) (hlen : s.length = 1000)
    (hA : A ≤ 1000) :
    (if (List.replicate A false ++ List.replicate (1000 - A) true).any id then
       maskAssignConst s (List.replicate A false ++ List.replicate (1000 - A) true) c
     else s) = s.take A ++ List.replicate (1000 - A) c := by
  by_cases hb : A < 1000
  · rw [if_pos (by rw [any_id_replicate_false]; exact any_id_rep_true _ (by omega))]
    rw [maskAssignConst_false_run]
    rw [show (List.replicate (1000 - A) true) =
      List.replicate (1000 - A) true ++ [] from (List.append_nil _).symm]
    rw [maskAssignConst_true_run _ _ _ _ (by rw [List.length_drop, hlen])]
    rw [maskAssignConst_nil_mask, drop_drop_q, show A + (1000 - A) = 1000 by omega]
    rw [List.drop_eq_nil_of_le (by omega), List.append_nil]
  · have hA2 : A = 1000 := by omega
    subst hA2
    simp only [Nat.sub_self, List.replicate_zero, List.append_nil]
    rw [if_neg (by rw [any_id_rep_false]; exact Bool.false_ne_true)]
    rw [List.take_of_length_le (by omega)]

theorem length_cityBlockVals (dt max_speed : ℚ) :
    (cityBlockVals dt max_speed).length = 1000 := by
  unfold cityBlockVals
  rw [length_cityAssignPhases, List.length_replicate]

set_option maxRecDepth 8000 in
theorem cityBlockVals_eq (dt max_speed : ℚ) (hdt : 0 < dt) :
    cityBlockVals dt max_speed =
      linspace 0 (max_speed * 0.6) (cityCountLe dt 5) ++
        (List.replicate (cityCountLe dt 10 - cityCountLe dt 5) (max_speed * 0.6) ++
          (linspace (max_speed * 0.6) 0 (cityCountLe dt 15 - cityCountLe dt 10) ++
            List.replicate (1000 - cityCountLe dt 15) 0)) := by
  have h5le := cityCountLe_le dt 5
  have h10le := cityCountLe_le dt 10
  have h15le := cityCountLe_le dt 15
  have h510 := cityCountLe_mono dt hdt 5 10 (by norm_num)
  have h1015 := cityCountLe_mono dt hdt 10 15 (by norm_num)
  have h5pos := cityCountLe_pos dt hdt 5 (by norm_num)
  unfold cityBlockVals cityAssignPhases
  dsimp only
  rw [if_pos (by simp :
    0 < ((List.range 1000).map (fun (c : ℕ) => (c : ℚ) * dt)).length)]
  rw [city_le_mask_shape dt 5 hdt,
      city_band_mask_shape dt 5 10 hdt (by norm_num),
      city_band_mask_shape dt 10 15 hdt (by norm_num),
      city_gt_mask_shape dt 15 hdt]
  simp only [countTrue_append, countTrue_replicate_true,
    countTrue_replicate_false, Nat.add_zero, Nat.zero_add]
  obtain ⟨A1, hA1⟩ : ∃ a, cityCountLe dt 5 = a := ⟨_, rfl⟩
  obtain ⟨A2, hA2⟩ : ∃ a, cityCountLe dt 10 = a := ⟨_, rfl⟩
  obtain ⟨A3, hA3⟩ : ∃ a, cityCountLe dt 15 = a := ⟨_, rfl⟩
  simp only [hA1, hA2, hA3] at h5le h10le h15le h510 h1015 h5pos ⊢
  have e1 : (if (List.replicate A1 true ++ List.replicate (1000 - A1) false).any id then
        maskAssign (List.replicate 1000 (0 : ℚ))
          (List.replicate A1 true ++ List.replicate (1000 - A1) false)
          (linspace 0 (max_speed * 0.6) A1)
      else List.replicate 1000 (0 : ℚ)) =
      linspace 0 (max_speed * 0.6) A1 ++ List.replicate (1000 - A1) 0 := by
    rw [headAssign_eq _ _ _ (List.length_replicate _ _) h5pos h5le
      (length_linspace _ _ _)]
    rw [drop_replicate_q]
  have hlen1 : (linspace 0 (max_speed * 0.6) A1 ++
      List.replicate (1000 - A1) (0 : ℚ)).length = 1000 := by
    rw [List.length_append, length_linspace, List.length_replicate]
    omega
  have e2 : (if (List.replicate A1 false ++ (List.replicate (A2 - A1) true ++
        List.replicate (1000 - A2) false)).any id then
        maskAssignConst
          (linspace 0 (max_speed * 0.6) A1 ++ List.replicate (1000 - A1) 0)
          (List.replicate A1 false ++ (List.replicate (A2 - A1) true ++
            List.replicate (1000 - A2) false))
          (max_speed * 0.6)
      else linspace 0 (max_speed * 0.6) A1 ++ List.replicate (1000 - A1) 0) =
      linspace 0 (max_speed * 0.6) A1 ++
        (List.replicate (A2 - A1) (max_speed * 0.6) ++
          List.replicate (1000 - A2) 0) := by
    rw [bandAssignConst_eq _ _ _ _ hlen1 h510 h10le]
    rw [take_append_of_len _ _ _ (length_linspace _ _ _)]
    rw [drop_append_add _ _ _ (by rw [length_linspace]; omega)]
    rw [length_linspace]
    rw [drop_replicate_q]
    rw [show 1000 - A1 - (A2 - A1) = 1000 - A2 from by omega]
  have hlen2 : (linspace 0 (max_speed * 0.6) A1 ++
      (List.replicate (A2 - A1) (max_speed * 0.6) ++
        List.replicate (1000 - A2) (0 : ℚ))).length = 1000 := by
    rw [List.length_append, List.length_append, length_linspace,
      List.length_replicate, List.length_replicate]
    omega
  have e3 : (if (List.replicate A2 false ++ (List.replicate (A3 - A2) true ++
        List.replicate (1000 - A3) false)).any id then
        maskAssign
          (linspace 0 (max_speed * 0.6) A1 ++
            (List.replicate (A2 - A1) (max_speed * 0.6) ++
              List.replicate (1000 - A2) 0))
          (List.replicate A2 false ++ (List.replicate (A3 - A2) true ++
            List.replicate (1000 - A3) false))
          (linspace (max_speed * 0.6) 0 (A3 - A2))
      else linspace 0 (max_speed * 0.6) A1 ++
        (List.replicate (A2 - A1) (max_speed * 0.6) ++
          List.replicate (1000 - A2) 0)) =
      linspace 0 (max_speed * 0.6) A1 ++
        (List.replicate (A2 - A1) (max_speed * 0.6) ++
          (linspace (max_speed * 0.6) 0 (A3 - A2) ++
            List.replicate (1000 - A3) 0)) := by
    rw [bandAssign_eq _ _ _ _ hlen2 h1015 h15le (length_linspace _ _ _)]
    rw [take_append_add _ _ _ (by rw [length_linspace]; omega)]
    rw [length_linspace]
    rw [take_append_of_len _ _ _ (List.length_replicate _ _)]
    rw [drop_append_add _ _ _ (by rw [length_linspace]; omega)]
    rw [length_linspace]
    rw [drop_append_add _ _ _ (by rw [List.length_replicate]; omega)]
    rw [List.length_replicate]
    rw [drop_replicate_q]
    rw [show 1000 - A2 - (A3 - A1 - (A2 - A1)) = 1000 - A3 from by omega]
    rw [List.append_assoc]
  have hlen3 : (linspace 0 (max_speed * 0.6) A1 ++
      (List.replicate (A2 - A1) (max_speed * 0.6) ++
        (linspace (max_speed * 0.6) 0 (A3 - A2) ++
          List.replicate (1000 - A3) (0 : ℚ)))).length = 1000 := by
    rw [List.length_append, List.length_append, List.length_append,
      length_linspace, List.length_replicate, length_linspace,
      List.length_replicate]
    omega
  have e4 : (if (List.replicate A3 false ++ List.replicate (1000 - A3) true).any id then
        maskAssignConst
          (linspace 0 (max_speed * 0.6) A1 ++
            (List.replicate (A2 - A1) (max_speed * 0.6) ++
              (linspace (max_speed * 0.6) 0 (A3 - A2) ++
                List.replicate (1000 - A3) 0)))
          (List.replicate A3 false ++ List.replicate (1000 - A3) true) 0
      else linspace 0 (max_speed * 0.6) A1 ++
        (List.replicate (A2 - A1) (max_speed * 0.6) ++
          (linspace (max_speed * 0.6) 0 (A3 - A2) ++
            List.replicate (1000 - A3) 0))) =
      linspace 0 (max_speed * 0.6) A1 ++
        (List.replicate (A2 - A1) (max_speed * 0.6) ++
          (linspace (max_speed * 0.6) 0 (A3 - A2) ++
            List.replicate (1000 - A3) 0)) := by
    rw [tailAssignConst_eq _ _ _ hlen3 h15le]
    rw [take_append_add _ _ _ (by rw [length_linspace]; omega)]
    rw [length_linspace]
    rw [take_append_add _ _ _ (by rw [List.length_replicate]; omega)]
    rw [List.length_replicate]
    rw [take_append_of_len _ _ _ (by rw [length_linspace]; omega)]
    rw [List.append_assoc, List.append_assoc]
  rw [e1, e2, e3, e4]

theorem cityBlockVals_getD (dt max_speed : ℚ) (hdt : 0 < dt) (c : ℕ)
    (hc : c < 1000) :
    (cityBlockVals dt max_speed).getD c 0 = cityCycleValue dt max_speed c := by
  have hchar5 := cityCountLe_char dt hdt 5
  have hchar10 := cityCountLe_char dt hdt 10
  have hchar15 := cityCountLe_char dt hdt 15
  have h5le := cityCountLe_le dt 5
  have h10le := cityCountLe_le dt 10
  have h15le := cityCountLe_le dt 15
  have h510 := cityCountLe_mono dt hdt 5 10 (by norm_num)
  have h1015 := cityCountLe_mono dt hdt 10 15 (by norm_num)
  rw [cityBlockVals_eq dt max_speed hdt]
  unfold cityCycleValue
  dsimp only
  by_cases h1 : (c : ℚ) * dt ≤ 5
  · have hcA1 : c < cityCountLe dt 5 := (hchar5 c hc).mp h1
    rw [if_pos h1]
    rw [getD_append_left_q _ _ _ (by rw [length_linspace]; omega)]
  · have hcA1 : ¬c < cityCountLe dt 5 := fun hcon => h1 ((hchar5 c hc).mpr hcon)
    rw [if_neg h1]
    rw [getD_append_right_q _ _ _ (by rw [length_linspace]; omega)]
    rw [length_linspace]
    by_cases h2 : (c : ℚ) * dt ≤ 10
    · have hcA2 : c < cityCountLe dt 10 := (hchar10 c hc).mp h2
      rw [if_pos h2]
      rw [getD_append_left_q _ _ _ (by rw [List.length_replicate]; omega)]
      rw [getD_replicate_q _ _ _ (by omega)]
    · have hcA2 : ¬c < cityCountLe dt 10 := fun hcon => h2 ((hchar10 c hc).mpr hcon)
      rw [if_neg h2]
      rw [getD_append_right_q _ _ _ (by rw [List.length_replicate]; omega)]
      rw [List.length_replicate]
      by_cases h3 : (c : ℚ) * dt ≤ 15
      · have hcA3 : c < cityCountLe dt 15 := (hchar15 c hc).mp h3
        rw [if_pos h3]
        rw [getD_append_left_q _ _ _ (by rw [length_linspace]; omega)]
        rw [show c - cityCountLe dt 5 - (cityCountLe dt 10 - cityCountLe dt 5) =
          c - cityCountLe dt 10 from by omega]
      · have hcA3 : ¬c < cityCountLe dt 15 :=
          fun hcon => h3 ((hchar15 c hc).mpr hcon)
        rw [if_neg h3]
        rw [getD_append_right_q _ _ _ (by rw [length_linspace]; omega)]
        rw [getD_replicate_q _ _ _ (by rw [length_linspace]; omega)]

theorem cityCycleValue_zero (dt max_speed : ℚ) (hdt : 0 < dt) :
    cityCycleValue dt max_speed 0 = 0 := by
  unfold cityCycleValue
  dsimp only
  rw [if_pos (by push_cast; rw [zero_mul]; norm_num)]
  unfold linspace
  by_cases hA : cityCountLe dt 5 = 1
  · rw [if_pos hA]
    rfl
  · rw [if_neg hA]
    have hpos := cityCountLe_pos dt hdt 5 (by norm_num)
    rw [List.getD_eq_getElem _ _
      (by rw [List.length_map, List.length_range]; omega)]
    simp only [List.getElem_map, List.getElem_range]
    norm_num

theorem getD_replicate_zero (n i : ℕ) :
    (List.replicate n (0 : ℚ)).getD i 0 = 0 := by
  by_cases h : i < n
  · exact getD_replicate_q n 0 i h
  · rw [List.getD_eq_default _ _ (by rw [List.length_replicate]; omega)]

theorem join_replicate_length (k : ℕ) (v : List ℚ) :
    (List.replicate k v).flatten.length = k * v.length := by
  induction k with
  | zero => simp
  | succ k ih =>
    rw [List.replicate_succ, List.flatten_cons, List.length_append, ih]
    ring

theorem join_replicate_succ (k : ℕ) (v : List ℚ) :
    (List.replicate (k + 1) v).flatten = (List.replicate k v).flatten ++ v := by
  rw [List.replicate_succ', List.flatten_append]
  simp

theorem join_replicate_getD (v : List ℚ) (hv : v.length = 1000) :
    ∀ (k j c : ℕ), j < k → c < 1000 →
      ((List.replicate k v).flatten).getD (1000 * j + c) 0 = v.getD c 0 := by
  intro k j
  induction j generalizing k with
  | zero =>
    intro c hj hc
    cases k with
    | zero => omega
    | succ k =>
      rw [List.replicate_succ, List.flatten_cons]
      rw [Nat.mul_zero, Nat.zero_add]
      exact getD_append_left_q _ _ _ (by omega)
  | succ j ih =>
    intro c hj hc
    cases k with
    | zero => omega
    | succ k =>
      rw [List.replicate_succ, List.flatten_cons]
      rw [getD_append_right_q _ _ _ (by rw [hv]; omega)]
      rw [hv]
      rw [show 1000 * (j + 1) + c - 1000 = 1000 * j + c from by omega]
      exact ih k c (by omega) hc

theorem getD_slice (xs : List ℚ) (s e i : ℕ) (h : i < e - s)
    (h2 : s + i < xs.length) :
    (slice xs s e).getD i 0 = xs.getD (s + i) 0 := by
  unfold slice
  rw [List.getD_eq_getElem _ _
    (by rw [List.length_take, List.length_drop]; omega)]
  rw [List.getElem_take]
  rw [List.getElem_drop]
  rw [← List.getD_eq_getElem _ _ h2]

theorem toNat_floor_div_1000 (n : ℕ) :
    Int.toNat ⌊(n : ℚ) / (20 / 0.02)⌋ = n / 1000 := by
  rw [show ((20 : ℚ) / 0.02) = ((1000 : ℕ) : ℚ) by norm_num]
  rw [Int.floor_toNat]
  exact Nat.floor_div_eq_div n 1000

theorem city_start_idx_eq (k : ℕ) :
    Int.toNat ⌊(k : ℚ) * 20 / 0.02⌋ = 1000 * k := by
  have hq : (k : ℚ) * 20 / 0.02 = ((1000 * k : ℕ) : ℚ) := by
    push_cast
    norm_num
    ring
  rw [hq, Int.floor_natCast]
  omega

theorem city_end_idx_eq (k : ℕ) :
    Int.toNat ⌊((k : ℚ) + 1) * 20 / 0.02⌋ = 1000 * (k + 1) := by
  have hq : ((k : ℚ) + 1) * 20 / 0.02 = ((1000 * (k + 1) : ℕ) : ℚ) := by
    push_cast
    norm_num
    ring
  rw [hq, Int.floor_natCast]
  omega

theorem city_cycle_time_eq (duration dt : ℚ) (k : ℕ)
    (hk : 1000 * (k + 1) ≤ (arange duration dt).length) :
    (slice (arange duration dt) (1000 * k) (1000 * (k + 1))).map
        (fun t => t - (arange duration dt).getD (1000 * k) 0) =
      (List.range 1000).map (fun (c : ℕ) => (c : ℚ) * dt) := by
  apply List.ext_getElem
  · rw [List.length_map, length_slice, List.length_map, List.length_range]
    omega
  · intro i h1 h2
    rw [List.length_map, length_slice] at h1
    simp only [List.getElem_map, List.getElem_range]
    have h1s : i < (slice (arange duration dt) (1000 * k) (1000 * (k + 1))).length := by
      rw [length_slice]
      omega
    have hsl : (slice (arange duration dt) (1000 * k) (1000 * (k + 1)))[i] =
        (arange duration dt).getD (1000 * k + i) 0 := by
      calc (slice (arange duration dt) (1000 * k) (1000 * (k + 1)))[i]
          = (slice (arange duration dt) (1000 * k) (1000 * (k + 1))).getD i 0 :=
            (List.getD_eq_getElem _ _ h1s).symm
        _ = (arange duration dt).getD (1000 * k + i) 0 :=
            getD_slice _ _ _ _ (by omega) (by omega)
    rw [hsl, getD_arange _ _ _ (by omega), getD_arange _ _ _ (by omega)]
    push_cast
    ring

theorem take_replicate_q (n k : ℕ) (a : ℚ) :
    (List.replicate n a).take k = List.replicate (min k n) a := by
  induction k generalizing n with
  | zero => simp
  | succ k ih =>
    cases n with
    | zero => simp
    | succ n =>
      simp only [List.replicate_succ, List.take_succ_cons, ih]
      rw [show min (k + 1) (n + 1) = min k n + 1 from by omega]
      rw [List.replicate_succ]

theorem city_fold_char (duration dt max_speed : ℚ) (hdt : 0 < dt) :
    ∀ k, 1000 * k ≤ (arange duration dt).length →
      (List.range k).foldl (cityStep (arange duration dt) max_speed)
          (List.replicate (arange duration dt).length (0 : ℚ)) =
        (List.replicate k (cityBlockVals dt max_speed)).flatten ++
          List.replicate ((arange duration dt).length - 1000 * k) (0 : ℚ) := by
  intro k
  induction k with
  | zero =>
    intro _
    simp
  | succ k ih =>
    intro hk1
    have hk : 1000 * k ≤ (arange duration dt).length := by omega
    rw [List.range_succ, List.foldl_append, List.foldl_cons, List.foldl_nil]
    rw [ih hk]
    unfold cityStep
    dsimp only
    rw [city_start_idx_eq, city_end_idx_eq]
    rw [if_neg (by omega : ¬(arange duration dt).length ≤ 1000 * k)]
    rw [min_eq_left hk1]
    rw [city_cycle_time_eq duration dt k hk1]
    have hslice : slice
        ((List.replicate k (cityBlockVals dt max_speed)).flatten ++
          List.replicate ((arange duration dt).length - 1000 * k) (0 : ℚ))
        (1000 * k) (1000 * (k + 1)) = List.replicate 1000 (0 : ℚ) := by
      unfold slice
      rw [drop_append_add _ _ _ (by
        rw [join_replicate_length, length_cityBlockVals]; omega)]
      rw [join_replicate_length, length_cityBlockVals]
      rw [show 1000 * k - k * 1000 = 0 from by omega]
      rw [List.drop_zero]
      rw [show 1000 * (k + 1) - 1000 * k = 1000 from by omega]
      rw [take_replicate_q]
      rw [show min 1000 ((arange duration dt).length - 1000 * k) = 1000 from
        by omega]
    rw [hslice]
    rw [show cityAssignPhases
        ((List.range 1000).map (fun (c : ℕ) => (c : ℚ) * dt))
        (List.replicate 1000 (0 : ℚ)) max_speed = cityBlockVals dt max_speed
      from rfl]
    unfold setSlice
    rw [length_cityBlockVals]
    rw [take_append_of_len _ _ _ (by
      rw [join_replicate_length, length_cityBlockVals]; omega)]
    rw [drop_append_add _ _ _ (by
      rw [join_replicate_length, length_cityBlockVals]; omega)]
    rw [join_replicate_length, length_cityBlockVals]
    rw [show 1000 * k + 1000 - k * 1000 = 1000 from by omega]
    rw [drop_replicate_q]
    rw [show (arange duration dt).length - 1000 * k - 1000 =
      (arange duration dt).length - 1000 * (k + 1) from by omega]
    rw [join_replicate_succ]

/-- C6: corrected structure of the city profile.  On the time axis
`arange duration dt` the profile consists of `len / 1000` full 1000-sample
stop-and-go blocks (each block is the four-phase cycle evaluated at the
cycle-local elapsed times `c * dt`), every sample from position
`1000 * (len / 1000)` on is left at `0` (the trailing partial cycle is
never written), and the first sample of every full block is `0` (the
vehicle is stopped at every block boundary). -/
theorem c6_city_profile_structure (duration dt max_speed min_speed : ℚ)
    (hdt : 0 < dt) :
    (create_city_profile (arange duration dt) max_speed min_speed).length =
        (arange duration dt).length ∧
      (∀ i, 1000 * ((arange duration dt).length / 1000) ≤ i →
        (create_city_profile (arange duration dt) max_speed min_speed).getD
            i 0 = 0) ∧
      (∀ j, j < (arange duration dt).length / 1000 → ∀ c, c < 1000 →
        (create_city_profile (arange duration dt) max_speed min_speed).getD
            (1000 * j + c) 0 = cityCycleValue dt max_speed c) ∧
      (∀ j, j < (arange duration dt).length / 1000 →
        (create_city_profile (arange duration dt) max_speed min_speed).getD
            (1000 * j) 0 = 0) := by
  have hprof : create_city_profile (arange duration dt) max_speed min_speed =
      (List.replicate ((arange duration dt).length / 1000)
          (cityBlockVals dt max_speed)).flatten ++
        List.replicate ((arange duration dt).length -
          1000 * ((arange duration dt).length / 1000)) (0 : ℚ) := by
    unfold create_city_profile
    dsimp only
    rw [toNat_floor_div_1000]
    exact city_fold_char duration dt max_speed hdt _ (by omega)
  refine ⟨?_, ?_, ?_, ?_⟩
  · rw [hprof, List.length_append, join_replicate_length, length_cityBlockVals,
      List.length_replicate]
    omega
  · intro i hi
    rw [hprof]
    rw [getD_append_right_q _ _ _ (by
      rw [join_replicate_length, length_cityBlockVals]; omega)]
    rw [join_replicate_length, length_cityBlockVals]
    exact getD_replicate_zero _ _
  · intro j hj c hc
    rw [hprof]
    rw [getD_append_left_q _ _ _ (by
      rw [join_replicate_length, length_cityBlockVals]; omega)]
    rw [join_replicate_getD (cityBlockVals dt max_speed)
      (length_cityBlockVals dt max_speed) _ j c hj hc]
    exact cityBlockVals_getD dt max_speed hdt c hc
  · intro j hj
    rw [hprof]
    rw [show 1000 * j = 1000 * j + 0 from (Nat.add_zero _).symm]
    rw [getD_append_left_q _ _ _ (by
      rw [join_replicate_length, length_cityBlockVals]; omega)]
    rw [join_replicate_getD (cityBlockVals dt max_speed)
      (length_cityBlockVals dt max_speed) _ j 0 hj (by omega)]
    rw [cityBlockVals_getD dt max_speed hdt 0 (by omega)]
    exact cityCycleValue_zero dt max_speed hdt

theorem c6_city_profile_structure_witness :
    (0 : ℚ) < 1 ∧
      ((create_city_profile (arange 30 1) 10 0).length =
          (arange 30 1).length ∧
        (∀ i, 1000 * ((arange 30 1).length / 1000) ≤ i →
          (create_city_profile (arange 30 1) 10 0).getD i 0 = 0) ∧
        (∀ j, j < (arange 30 1).length / 1000 → ∀ c, c < 1000 →
          (create_city_profile (arange 30 1) 10 0).getD (1000 * j + c) 0 =
            cityCycleValue 1 10 c) ∧
        (∀ j, j < (arange 30 1).length / 1000 →
          (create_city_profile (arange 30 1) 10 0).getD (1000 * j) 0 = 0)) :=
  ⟨by norm_num, c6_city_profile_structure 30 1 10 0 (by norm_num)⟩

end CavDev
